import Mathlib

/-!
# streamsync: a shallow embedding of `main.go`

The program copies a playlist from a source music service to a destination
service.  This development embeds the parts of `main.go` that carry a
contract:

* `findItem`, the linear scan over a destination listing;
* `makeTidalRequest`, `readResp`, `getTidalFolders`, `makeTidalFolder`,
  `makeTidalPlaylist`, the authenticated HTTP helpers;
* `findOrMakeTidalFolder` and `findOrMakeTidalPlaylist`, the find-or-create
  resolvers;
* `getPlaylist`, the conversion of the source playlist into the
  service-neutral `Playlist`.

Conventions of the embedding.

* A Go pointer `*T` is an `Option T`; dereferencing `none` is the run-time
  panic of Go and is the outcome `Res.panic`.
* A Go result pair `(*T, error)` is a pair `Option T × Option String`, the
  error being its message.
* `log.Fatal` / `log.Fatalf` end the process: outcome `Res.fatal`, which
  keeps the arguments of the call.
* Calls that leave the process are recorded, in order, in a trace of
  `Event`s.  Writes to standard output (`fmt.Printf`, `fmt.Println`) are not
  recorded, but the evaluation of their arguments is (it can panic).
* The libraries (`net/http`, `encoding/json`, the source-service client) and
  the process environment are parameters, gathered in `TidalEnv` and
  `SpotifyEnv`.
-/

namespace Streamsync

/-! ## Outcomes and traces -/

/-- Outcome of running a Go function: it returns a value, the process is
ended by `log.Fatal` (with the message and the error passed to it), or the
goroutine panics on a nil dereference. -/
inductive Res (α : Type) where
  | ret (a : α)
  | fatal (msg : String) (err : Option String)
  | panic
  deriving DecidableEq, Repr

/-! ## Destination data model (`main.go` lines 327-340) -/

/-- Go: `type TidalItemData struct { Id string; Uuid string }`. -/
structure TidalItemData where
  Id : String
  Uuid : String
  deriving DecidableEq, Repr

/-- Go: `type TidalItem struct { ItemType string; Name string; Data *TidalItemData }`. -/
structure TidalItem where
  ItemType : String
  Name : String
  Data : Option TidalItemData
  deriving DecidableEq, Repr

/-- Go: `type TidalFolderResponse struct { Items []*TidalItem }`. -/
structure TidalFolderResponse where
  Items : List (Option TidalItem)
  deriving DecidableEq, Repr

/-! ## HTTP model -/

/-- The fields of `url.URL` that `buildTidalURL` sets. -/
structure URL where
  Scheme : String
  Host : String
  Path : String
  RawQuery : String
  deriving DecidableEq, Repr

/-- An `http.Request` as `makeTidalRequest` builds it, given by the arguments
of `http.NewRequest(method, rawurl, nil)` and the header lines added to the
result.  `Target` is the text `rawurl` handed to `http.NewRequest`; the URL
of the request is what `net/url` parses from that text (a `#` in it ends the
query and begins the fragment), and this parse is not modelled.  The body is
always nil. -/
structure Request where
  Method : String
  Target : String
  Header : List (String × String)
  deriving DecidableEq, Repr

/-- An `http.Response`: the status code and what `io.ReadAll` gives on its
body (the bytes, or a read error). -/
structure Response where
  StatusCode : Int
  Body : Except String String

/-- What leaves the process, in program order. -/
inductive Event where
  /-- Entry into `getTidalFolders(client, folder)`. -/
  | listing (folder : Option TidalItem)
  /-- Entry into `makeTidalFolder(client, folderName)`. -/
  | createFolder (folderName : String)
  /-- Entry into `makeTidalPlaylist(client, folder, name)`. -/
  | createPlaylist (folder : Option TidalItem) (name : String)
  /-- The network request `client.Do(req)`. -/
  | send (req : Request)
  deriving DecidableEq, Repr

/-- A run of an effectful Go function: its outcome and the events it
emitted. -/
structure Run (α : Type) where
  res : Res α
  trace : List Event

/-- A run that returns `a` and emits nothing. -/
def Run.pure {α : Type} (a : α) : Run α := ⟨.ret a, []⟩

/-- A run that emits one event. -/
def Run.emit (e : Event) : Run Unit := ⟨.ret (), [e]⟩

/-- A pure computation that may panic, as a run. -/
def Run.lift {α : Type} (r : Res α) : Run α := ⟨r, []⟩

/-- The process ends in `log.Fatal(msg, err)`. -/
def Run.fatal {α : Type} (msg : String) (err : Option String) : Run α :=
  ⟨.fatal msg err, []⟩

/-- Sequencing: the continuation runs only when the first part returns; a
fatal exit or a panic stops the run with the events emitted so far. -/
def Run.bind {α β : Type} (x : Run α) (f : α → Run β) : Run β :=
  match x.res with
  | .ret a => ⟨(f a).res, x.trace ++ (f a).trace⟩
  | .fatal msg err => ⟨.fatal msg err, x.trace⟩
  | .panic => ⟨.panic, x.trace⟩

/-- The libraries and the process environment the destination code runs
against. -/
structure TidalEnv where
  /-- Value of `os.Getenv("TIDAL_BEARER_TOKEN")`. -/
  tidalAPIKey : String
  /-- Value of `os.Getenv("TIDAL_TRANSFER_FOLDER")`; the empty string when unset. -/
  transferFolder : String
  /-- Error of `http.NewRequest(method, url.String(), nil)`, `none` when the
  request is built. -/
  newRequestErr : String → URL → Option String
  /-- Result of `client.Do(req)`: a transport error or the response. -/
  Do : Request → Except String Response
  /-- Result of `json.Unmarshal(body, &TidalFolderResponse{})`. -/
  unmarshalFolders : String → Except String TidalFolderResponse
  /-- Result of `json.Unmarshal(body, &TidalItem{})`. -/
  unmarshalItem : String → Except String TidalItem

/-! ## `findItem` (lines 294-302) -/

/-- The `for _, item := range folderResp.Items` loop of `findItem`: reading
`item.Name` of a nil item panics. -/
def findItemLoop : List (Option TidalItem) → String → Res (Option TidalItem)
  | [], _ => .ret none
  | none :: _, _ => .panic
  | some item :: rest, itemName =>
    if item.Name = itemName then .ret (some item) else findItemLoop rest itemName

/-- Go: `func findItem(folderResp *TidalFolderResponse, itemName string) *TidalItem`. -/
def findItem (folderResp : Option TidalFolderResponse) (itemName : String) :
    Res (Option TidalItem) :=
  match folderResp with
  | none => .panic
  | some r => findItemLoop r.Items itemName

/-- A listing all of whose items are non-nil. -/
def listingOf (items : List TidalItem) : Option TidalFolderResponse :=
  some ⟨items.map some⟩

/-! ## HTTP helpers (lines 342-378) -/

/-- Go: `tidalHost = "listen.tidal.com"`. -/
def tidalHost : String := "listen.tidal.com"

/-- Go: `func buildTidalURL(path string, query string) *url.URL`. -/
def buildTidalURL (path : String) (query : String) : URL :=
  { Scheme := "https", Host := tidalHost, Path := path, RawQuery := query }

/-- The error `fmt.Errorf("Tidal returned error code %s", resp.StatusCode)`:
the verb `%s` applied to an `int` prints `%!s(int=N)`. -/
def statusError (code : Int) : String :=
  "Tidal returned error code %!s(int=" ++ toString code ++ ")"

/-- Go: `func (u *URL) String() string` of `net/url`, for a URL as
`buildTidalURL` builds it here: scheme and host non-empty, no user
information, no fragment, and a path that begins with `/` and needs no
escaping (the three paths are fixed texts).  The query is written as it
stands, after a `?`, when it is not empty. -/
def urlString (u : URL) : String :=
  u.Scheme ++ "://" ++ u.Host ++ u.Path ++
    (if u.RawQuery = "" then "" else "?" ++ u.RawQuery)

/-- Lines 356-360: the request `http.NewRequest(method, url.String(), nil)`
after `req.Header.Add("Authorization", fmt.Sprintf("Bearer %s", tidalAPIKey))`. -/
def authorizedRequest (env : TidalEnv) (method : String) (url : URL) : Request :=
  { Method := method, Target := urlString url,
    Header := [("Authorization", "Bearer " ++ env.tidalAPIKey)] }

/-- Go: `func makeTidalRequest(client *http.Client, method string, url *url.URL)
(*http.Response, error)`. -/
def makeTidalRequest (env : TidalEnv) (method : String) (url : URL) :
    Run (Option Response × Option String) :=
  match env.newRequestErr method url with
  | some err => Run.pure (none, some err)
  | none =>
    let req := authorizedRequest env method url
    Run.bind (Run.emit (.send req)) fun _ =>
    match env.Do req with
    | .error err => Run.pure (none, some err)
    | .ok resp =>
      if resp.StatusCode ≥ 400 then
        Run.pure (none, some (statusError resp.StatusCode))
      else
        Run.pure (some resp, none)

/-- Go: `func readResp(resp *http.Response) ([]byte, error)`.  A nil byte
slice is the empty string. -/
def readResp (resp : Option Response) : Res (String × Option String) :=
  match resp with
  | none => .panic
  | some r =>
    match r.Body with
    | .error err => .ret ("", some err)
    | .ok body => .ret (body, none)

/-- The selector chain `item.Data.Id` / `item.Data.Uuid` on a `*TidalItem`:
it panics when the item or its `Data` is nil. -/
def itemData (item : Option TidalItem) : Res TidalItemData :=
  match item with
  | none => .panic
  | some it =>
    match it.Data with
    | none => .panic
    | some d => .ret d

/-- The item `&TidalItem{Name: "root", Data: &TidalItemData{Id: "root"}}`. -/
def rootItem : TidalItem :=
  { ItemType := "", Name := "root", Data := some { Id := "root", Uuid := "" } }

/-! ## Listing and creation (lines 208-237, 276-292, 380-423) -/

/-- Lines 390-403 of `getTidalFolders`: the listing URL for a folder id. -/
def listingURL (folderId : String) : URL :=
  let path := "/v2/my-collection/playlists/folders"
  let query := "folderId=" ++ folderId ++
    "&includeOnly=&offset=0&limit=50&order=DATE&orderDirection=DESC&countryCode=US&locale=en_US&deviceType=BROWSER"
  buildTidalURL path query

/-- Lines 209-220 of `makeTidalPlaylist`: the create-playlist URL. -/
def createPlaylistURL (folderId : String) (name : String) : URL :=
  let path := "/v2/my-collection/playlists/folders/create-playlist"
  let query := "description=&folderId=" ++ folderId ++ "&isPublic=false&name=" ++ name ++
    "&countryCode=US&locale=en_US&deviceType=BROWSER"
  buildTidalURL path query

/-- Lines 277-279 of `makeTidalFolder`: the create-folder URL. -/
def createFolderURL (folderName : String) : URL :=
  let path := "/v2/my-collection/playlists/folders/create-folder"
  let query := "folderId=root&name=" ++ folderName ++
    "&trns=&countryCode=US&locale=en_US&deviceType=BROWSER"
  buildTidalURL path query

/-- Go: `func getTidalFolders(client *http.Client, folder *TidalItem)
(*TidalFolderResponse, error)`. -/
def getTidalFolders (env : TidalEnv) (folder : Option TidalItem) :
    Run (Option TidalFolderResponse × Option String) :=
  Run.bind (Run.emit (.listing folder)) fun _ =>
  let folder : Option TidalItem :=
    match folder with
    | none => some rootItem
    | some f => some f
  Run.bind (Run.lift (itemData folder)) fun d =>
  let url := listingURL d.Id
  Run.bind (makeTidalRequest env "GET" url) fun (resp, err) =>
  match err with
  | some e => Run.pure (none, some e)
  | none =>
    Run.bind (Run.lift (readResp resp)) fun (body, err) =>
    match err with
    | some e => Run.pure (none, some e)
    | none =>
      match env.unmarshalFolders body with
      | .error e => Run.pure (none, some e)
      | .ok folderResp => Run.pure (some folderResp, none)

/-- Go: `func makeTidalPlaylist(client *http.Client, folder *TidalItem, name string)
(*TidalItem, error)`. -/
def makeTidalPlaylist (env : TidalEnv) (folder : Option TidalItem) (name : String) :
    Run (Option TidalItem × Option String) :=
  Run.bind (Run.emit (.createPlaylist folder name)) fun _ =>
  Run.bind (Run.lift (itemData folder)) fun d =>
  let url := createPlaylistURL d.Id name
  Run.bind (makeTidalRequest env "PUT" url) fun (resp, err) =>
  match err with
  | some e => Run.pure (none, some e)
  | none =>
    Run.bind (Run.lift (readResp resp)) fun (body, err) =>
    match err with
    | some e => Run.pure (none, some e)
    | none =>
      match env.unmarshalItem body with
      | .error e => Run.pure (none, some e)
      | .ok playlist => Run.pure (some playlist, none)

/-- Go: `func makeTidalFolder(client *http.Client, folderName string)
(*TidalItem, error)`.  The error of `readResp` is overwritten by the one of
`json.Unmarshal` without being tested, so a failed read decodes the nil
body. -/
def makeTidalFolder (env : TidalEnv) (folderName : String) :
    Run (Option TidalItem × Option String) :=
  Run.bind (Run.emit (.createFolder folderName)) fun _ =>
  let url := createFolderURL folderName
  Run.bind (makeTidalRequest env "PUT" url) fun (resp, err) =>
  match err with
  | some e => Run.pure (none, some e)
  | none =>
    Run.bind (Run.lift (readResp resp)) fun (body, _) =>
    match env.unmarshalItem body with
    | .error e => Run.pure (none, some e)
    | .ok folder => Run.pure (some folder, none)

/-! ## Find-or-create resolvers (lines 185-206, 239-274) -/

/-- The folder name `findOrMakeTidalFolder` resolves: the environment value,
or `"spotify"` when it is empty (lines 245-248). -/
def folderName (env : TidalEnv) : String :=
  if env.transferFolder = "" then "spotify" else env.transferFolder

/-- Go: `func findOrMakeTidalPlaylist(client *http.Client, folder *TidalItem,
name string) (*TidalItem, error)`. -/
def findOrMakeTidalPlaylist (env : TidalEnv) (folder : Option TidalItem) (name : String) :
    Run (Option TidalItem × Option String) :=
  Run.bind (getTidalFolders env folder) fun (folderResp, err) =>
  match err with
  | some e => Run.pure (none, some e)
  | none =>
    Run.bind (Run.lift (findItem folderResp name)) fun playlist =>
    Run.bind
      (match playlist with
       | some p => Run.pure (some p)
       | none =>
         Run.bind (makeTidalPlaylist env folder name) fun (playlist, err) =>
         match err with
         | some e => Run.fatal "Failed to create playlist " (some e)
         | none =>
           match playlist with
           | none => Run.fatal "Failed to find a playlist" none
           | some p => Run.pure (some p)) fun playlist =>
    -- fmt.Printf("Using playlist %s (%s)\n", playlist.Name, playlist.Data.Uuid)
    Run.bind (Run.lift (itemData playlist)) fun _ =>
    Run.pure (playlist, none)

/-- Go: `func findOrMakeTidalFolder(client *http.Client) (*TidalItem, error)`. -/
def findOrMakeTidalFolder (env : TidalEnv) : Run (Option TidalItem × Option String) :=
  Run.bind (getTidalFolders env none) fun (folderResp, err) =>
  match err with
  | some e => Run.fatal "Could not get tidal folders" (some e)
  | none =>
    if folderName env = "root" then
      Run.pure (some rootItem, none)
    else
      Run.bind (Run.lift (findItem folderResp (folderName env))) fun folder =>
      Run.bind
        (match folder with
         | some f => Run.pure (some f)
         | none =>
           Run.bind (makeTidalFolder env (folderName env)) fun (folder, err) =>
           match err with
           | some e => Run.fatal "Failed to create folder" (some e)
           | none =>
             match folder with
             | none => Run.fatal "Failed to find a folder" none
             | some f => Run.pure (some f)) fun folder =>
      -- fmt.Printf("Using folder %s (%s)\n", folder.Name, folder.Data.Id)
      Run.bind (Run.lift (itemData folder)) fun _ =>
      Run.pure (folder, none)

/-- The events of a trace that are network requests. -/
def sentRequests : List Event → List Request
  | [] => []
  | .send r :: t => r :: sentRequests t
  | _ :: t => sentRequests t

/-- The events of a trace that are entries into `getTidalFolders`. -/
def listingCalls : List Event → List (Option TidalItem)
  | [] => []
  | .listing f :: t => f :: listingCalls t
  | _ :: t => listingCalls t

/-- The events of a trace that are entries into `makeTidalFolder`. -/
def createFolderCalls : List Event → List String
  | [] => []
  | .createFolder n :: t => n :: createFolderCalls t
  | _ :: t => createFolderCalls t

/-- The events of a trace that are entries into `makeTidalPlaylist`. -/
def createPlaylistCalls : List Event → List (Option TidalItem × String)
  | [] => []
  | .createPlaylist f n :: t => (f, n) :: createPlaylistCalls t
  | _ :: t => createPlaylistCalls t

/-! ## Source playlist model and `getPlaylist` (lines 37-62, 85-115) -/

/-- Go: `type Artist struct { Name string }`. -/
structure Artist where
  Name : String
  deriving DecidableEq, Repr

/-- Go: `type Track struct { Name string; Artists []*Artist; Album string;
Duration time.Duration }`.  A `time.Duration` is an `int64` count of
nanoseconds. -/
structure Track where
  Name : String
  Artists : List (Option Artist)
  Album : String
  Duration : Int
  deriving DecidableEq, Repr

/-- Go: `type Playlist struct { Name string; Description string; Tracks []*Track }`. -/
structure Playlist where
  Name : String
  Description : String
  Tracks : List (Option Track)
  deriving DecidableEq, Repr

/-- The field of the source client's `SimpleArtist` that `getPlaylist` reads. -/
structure SimpleArtist where
  Name : String
  deriving DecidableEq, Repr

/-- The field of the source client's `SimpleAlbum` that `getPlaylist` reads. -/
structure SimpleAlbum where
  Name : String
  deriving DecidableEq, Repr

/-- The fields of the source client's `SimpleTrack` that `getPlaylist` reads;
`Duration` is an `int` of milliseconds. -/
structure SimpleTrack where
  Name : String
  Artists : List SimpleArtist
  Duration : Int
  deriving DecidableEq, Repr

/-- The fields of the source client's `FullTrack` that `getPlaylist` reads. -/
structure FullTrack where
  SimpleTrack : SimpleTrack
  Album : SimpleAlbum
  deriving DecidableEq, Repr

/-- The field of the source client's `PlaylistTrack` that `getPlaylist` reads. -/
structure PlaylistTrack where
  Track : FullTrack
  deriving DecidableEq, Repr

/-- The field of the source client's `PlaylistTrackPage` that `getPlaylist` reads. -/
structure PlaylistTrackPage where
  Tracks : List PlaylistTrack
  deriving DecidableEq, Repr

/-- The fields of the source client's `SimplePlaylist` that `getPlaylist` reads. -/
structure SimplePlaylist where
  Name : String
  Description : String
  deriving DecidableEq, Repr

/-- The fields of the source client's `FullPlaylist` that `getPlaylist` reads. -/
structure FullPlaylist where
  SimplePlaylist : SimplePlaylist
  Tracks : PlaylistTrackPage
  deriving DecidableEq, Repr

/-- The source service as `getPlaylist` sees it. -/
structure SpotifyEnv where
  /-- Error of the client-credentials grant `config.Token(ctx)`, `none` when a
  token is granted. -/
  tokenErr : Option String
  /-- Result of `client.GetPlaylist(ctx, spotify.ID(playlist_id))`. -/
  GetPlaylist : String → Except String FullPlaylist

/-- Conversion to `int64`: the value modulo `2^64`, in `[-2^63, 2^63)`. -/
def int64 (x : Int) : Int :=
  (x + 2 ^ 63) % 2 ^ 64 - 2 ^ 63

/-- Go: `time.Nanosecond`. -/
def timeNanosecond : Int := 1

/-- Go: `time.Microsecond = 1000 * Nanosecond`. -/
def timeMicrosecond : Int := 1000 * timeNanosecond

/-- Go: `time.Millisecond = 1000 * Microsecond`. -/
def timeMillisecond : Int := 1000 * timeMicrosecond

/-- Go: `time.Second = 1000 * Millisecond`. -/
def timeSecond : Int := 1000 * timeMillisecond

/-- Line 103: `time.Duration(int64(d) * int64(time.Millisecond))`, a product of
`int64` values, which wraps. -/
def trackDuration (d : Int) : Int :=
  int64 (int64 d * int64 timeMillisecond)

/-- Lines 99-102: the loop `for _, a := range track.Track.SimpleTrack.Artists`
appending `&Artist{Name: a.Name}`. -/
def convertArtists (as : List SimpleArtist) : List (Option Artist) :=
  as.foldl (fun artists a => artists ++ [some { Name := a.Name }]) []

/-- Lines 99-109: the body of the track loop, the `&Track{...}` built from one
source track. -/
def convertTrack (track : PlaylistTrack) : Track :=
  { Name := track.Track.SimpleTrack.Name,
    Artists := convertArtists track.Track.SimpleTrack.Artists,
    Album := track.Track.Album.Name,
    Duration := trackDuration track.Track.SimpleTrack.Duration }

/-- Lines 97-111: the loop `for _, track := range spotifyPlaylist.Tracks.Tracks`
appending the converted track. -/
def convertTracks (ts : List PlaylistTrack) : List (Option Track) :=
  ts.foldl (fun tracks track => tracks ++ [some (convertTrack track)]) []

/-- Go: `func spotifyAuth(ctx context.Context) *spotify.Client`: fatal when the
grant fails. -/
def spotifyAuth (env : SpotifyEnv) : Res Unit :=
  match env.tokenErr with
  | some err => .fatal "couldn't get token: %v" (some err)
  | none => .ret ()

/-- Go: `func getPlaylist(playlist_id string) Playlist`. -/
def getPlaylist (env : SpotifyEnv) (playlist_id : String) : Res Playlist :=
  match spotifyAuth env with
  | .fatal msg err => .fatal msg err
  | .panic => .panic
  | .ret _ =>
    match env.GetPlaylist playlist_id with
    | .error err => .fatal "couldn't get features playlists: %v" (some err)
    | .ok spotifyPlaylist =>
      .ret
        { Name := spotifyPlaylist.SimplePlaylist.Name,
          Description := spotifyPlaylist.SimplePlaylist.Description,
          Tracks := convertTracks spotifyPlaylist.Tracks.Tracks }

/-! ## Concrete scenarios -/

/-- A destination item of type folder. -/
def folderItem (name : String) (id : String) : TidalItem :=
  { ItemType := "FOLDER", Name := name, Data := some { Id := id, Uuid := "" } }

/-- A destination item of type playlist. -/
def playlistItem (name : String) (id : String) (uuid : String) : TidalItem :=
  { ItemType := "PLAYLIST", Name := name, Data := some { Id := id, Uuid := uuid } }

/-- A destination service that answers every `GET` with `listingResp` and
every other request with `createResp`. -/
def serviceOf (listingResp createResp : Except String Response) :
    Request → Except String Response :=
  fun req => if req.Method = "GET" then listingResp else createResp

/-- An environment with transfer folder `folder`, the service
`serviceOf listingResp createResp`, and decoders that give `folders` and
`item` on every body. -/
def scenario (folder : String) (listingResp createResp : Except String Response)
    (folders : Except String TidalFolderResponse) (item : Except String TidalItem) :
    TidalEnv :=
  { tidalAPIKey := "token", transferFolder := folder,
    newRequestErr := fun _ _ => none,
    Do := serviceOf listingResp createResp,
    unmarshalFolders := fun _ => folders,
    unmarshalItem := fun _ => item }

/-- A response with status 200 and the given body. -/
def ok200 (body : String) : Except String Response :=
  .ok { StatusCode := 200, Body := .ok body }

/-- A response with the given status and an empty body. -/
def status (code : Int) : Except String Response :=
  .ok { StatusCode := code, Body := .ok "" }

/-- The decoding error of `encoding/json` on an empty body. -/
def eofError : String := "unexpected end of JSON input"

/-- Transfer folder `"root"`, the destination answers the listing with 503. -/
def rootDownEnv : TidalEnv :=
  scenario "root" (status 503) (status 503) (.error eofError) (.error eofError)

/-- Transfer folder `"spotify"`, the root listing holds a playlist and then a
folder named `"spotify"`. -/
def spotifyEnv : TidalEnv :=
  scenario "spotify" (ok200 "listing") (status 500)
    (.ok ⟨[some (playlistItem "mix" "p-1" "u-1"), some (folderItem "spotify" "f-1")]⟩)
    (.error eofError)

/-- Transfer folder `"spotify"`, the root listing holds an item named
`"spotify"` that carries no `data` object. -/
def spotifyNoDataEnv : TidalEnv :=
  scenario "spotify" (ok200 "listing") (status 500)
    (.ok ⟨[some { ItemType := "FOLDER", Name := "spotify", Data := none }]⟩)
    (.error eofError)

/-- Transfer folder `"newfolder"`, absent from the root listing; the create
call answers 200 with the created folder. -/
def newfolderEnv : TidalEnv :=
  scenario "newfolder" (ok200 "listing") (ok200 "created")
    (.ok ⟨[some (folderItem "spotify" "f-1")]⟩)
    (.ok (folderItem "newfolder" "f-2"))

/-- Transfer folder `"newfolder"`, absent from the root listing; the create
call answers 500. -/
def newfolderRefusedEnv : TidalEnv :=
  scenario "newfolder" (ok200 "listing") (status 500)
    (.ok ⟨[some (folderItem "spotify" "f-1")]⟩)
    (.ok (folderItem "newfolder" "f-2"))

/-- Transfer folder `"newfolder"`, absent from the root listing; the create
call answers 200 with an item that carries no `data` object. -/
def newfolderNoDataEnv : TidalEnv :=
  scenario "newfolder" (ok200 "listing") (ok200 "created")
    (.ok ⟨[some (folderItem "spotify" "f-1")]⟩)
    (.ok { ItemType := "FOLDER", Name := "newfolder", Data := none })

/-- The listing of the folder holds a folder named `"mix"`. -/
def mixFolderEnv : TidalEnv :=
  scenario "spotify" (ok200 "listing") (status 500)
    (.ok ⟨[some (folderItem "mix" "f-9")]⟩)
    (.error eofError)

/-- The listing is empty and the create call answers 200 with a body that
does not decode. -/
def undecodableEnv : TidalEnv :=
  scenario "spotify" (ok200 "listing") (ok200 "")
    (.ok ⟨[]⟩)
    (.error eofError)

/-- A source track. -/
def sourceTrack (name album : String) (artists : List String) (ms : Int) : PlaylistTrack :=
  { Track :=
      { SimpleTrack := { Name := name, Artists := artists.map (fun n => ⟨n⟩), Duration := ms },
        Album := { Name := album } } }

/-- A source playlist of three tracks. -/
def threeTracks : FullPlaylist :=
  { SimplePlaylist := { Name := "Road trip", Description := "three songs" },
    Tracks :=
      { Tracks :=
          [sourceTrack "One" "First" ["Ann"] 1000,
           sourceTrack "Two" "Second" ["Bob", "Cy"] 215000,
           sourceTrack "Three" "Third" [] 61234] } }

/-- A source service that grants a token and serves `threeTracks`. -/
def threeTracksEnv : SpotifyEnv :=
  { tokenErr := none, GetPlaylist := fun _ => .ok threeTracks }

/-- The destination answers every request with status 404. -/
def env404 : TidalEnv :=
  scenario "spotify" (status 404) (status 404) (.error eofError) (.error eofError)

/-- The error of `http.NewRequest` on the create-folder URL text of the name
`"a\tb"`: `net/url` refuses a text that holds a control character. -/
def controlCharError : String :=
  "parse \"https://listen.tidal.com/v2/my-collection/playlists/folders/create-folder?folderId=root&name=a\\tb&trns=&countryCode=US&locale=en_US&deviceType=BROWSER\": net/url: invalid control character in URL"

/-- Transfer folder `"a\tb"` (a tab in the name), the root listing is fetched
and is empty; `http.NewRequest` refuses the create-folder URL of that name. -/
def tabEnv : TidalEnv :=
  { tidalAPIKey := "token", transferFolder := "a\tb",
    newRequestErr := fun _ u =>
      if u = createFolderURL "a\tb" then some controlCharError else none,
    Do := serviceOf (ok200 "listing") (status 500),
    unmarshalFolders := fun _ => .ok ⟨[]⟩,
    unmarshalItem := fun _ => .error eofError }

/-! ### Lemmas on `findItem` -/

theorem findItemLoop_map_some (items : List TidalItem) (name : String) :
    findItemLoop (items.map some) name
      = .ret (items.find? (fun it => decide (it.Name = name))) := by
  induction items with
  | nil => rfl
  | cons it rest ih =>
    by_cases h : it.Name = name
    · simp [findItemLoop, h]
    · simp [findItemLoop, h, ih]

theorem findItemLoop_some_name :
    ∀ (items : List (Option TidalItem)) (name : String) (item : TidalItem),
      findItemLoop items name = .ret (some item) → item.Name = name ∧ some item ∈ items
  | [], _, _, h => by simp [findItemLoop] at h
  | none :: _, _, _, h => by simp [findItemLoop] at h
  | some it :: rest, name, item, h => by
    by_cases hn : it.Name = name
    · simp [findItemLoop, hn] at h
      subst h
      exact ⟨hn, by simp⟩
    · simp [findItemLoop, hn] at h
      obtain ⟨h1, h2⟩ := findItemLoop_some_name rest name item h
      exact ⟨h1, by simp [h2]⟩

theorem findItemLoop_none :
    ∀ (items : List (Option TidalItem)) (name : String),
      findItemLoop items name = .ret none →
        ∀ x ∈ items, ∃ it : TidalItem, x = some it ∧ it.Name ≠ name
  | [], _, _ => by simp
  | none :: _, _, h => by simp [findItemLoop] at h
  | some it :: rest, name, h => by
    by_cases hn : it.Name = name
    · simp [findItemLoop, hn] at h
    · simp [findItemLoop, hn] at h
      intro x hx
      rcases List.mem_cons.1 hx with hx | hx
      · exact ⟨it, hx, hn⟩
      · exact findItemLoop_none rest name h x hx

theorem findItem_ne_fatal (folderResp : Option TidalFolderResponse) (name : String)
    (msg : String) (err : Option String) :
    findItem folderResp name ≠ .fatal msg err := by
  cases folderResp with
  | none => simp [findItem]
  | some listing =>
    simp only [findItem]
    generalize listing.Items = items
    induction items with
    | nil => simp [findItemLoop]
    | cons x rest ih =>
      cases x with
      | none => simp [findItemLoop]
      | some it =>
        by_cases hn : it.Name = name
        · simp [findItemLoop, hn]
        · simpa [findItemLoop, hn] using ih

/-- `findItem` selects `item` exactly when the listing is `k` non-nil items
not carrying the name, then `item`, which carries it, then anything. -/
theorem findItem_some_iff (listing : TidalFolderResponse) (name : String) (item : TidalItem) :
    findItem (some listing) name = .ret (some item) ↔
      ∃ (before : List TidalItem) (after : List (Option TidalItem)),
        listing.Items = before.map some ++ some item :: after ∧ item.Name = name ∧
        ∀ x ∈ before, x.Name ≠ name := by
  show findItemLoop listing.Items name = .ret (some item) ↔ _
  generalize listing.Items = items
  induction items with
  | nil => simp [findItemLoop]
  | cons x rest ih =>
    cases x with
    | none =>
      simp only [findItemLoop]
      constructor
      · intro h; cases h
      · rintro ⟨before, after, hsplit, -, -⟩
        cases before with
        | nil => simp at hsplit
        | cons b bs => simp at hsplit
    | some it =>
      by_cases hn : it.Name = name
      · simp only [findItemLoop, hn, if_true]
        constructor
        · intro h
          have hit : it = item := by simpa using h
          subst hit
          exact ⟨[], rest, rfl, hn, by simp⟩
        · rintro ⟨before, after, hsplit, -, hbefore⟩
          cases before with
          | nil =>
            simp only [List.map_nil, List.nil_append, List.cons.injEq, Option.some.injEq] at hsplit
            rw [hsplit.1]
          | cons b bs =>
            simp only [List.map_cons, List.cons_append, List.cons.injEq, Option.some.injEq] at hsplit
            exact absurd (hsplit.1 ▸ hn) (hbefore b (by simp))
      · simp only [findItemLoop, hn, if_false]
        rw [ih]
        constructor
        · rintro ⟨before, after, hsplit, hname, hbefore⟩
          refine ⟨it :: before, after, by simp [hsplit], hname, ?_⟩
          intro y hy
          rcases List.mem_cons.1 hy with hy | hy
          · rw [hy]; exact hn
          · exact hbefore y hy
        · rintro ⟨before, after, hsplit, hname, hbefore⟩
          cases before with
          | nil =>
            simp only [List.map_nil, List.nil_append, List.cons.injEq, Option.some.injEq] at hsplit
            exact absurd (hsplit.1 ▸ hname) hn
          | cons b bs =>
            simp only [List.map_cons, List.cons_append, List.cons.injEq, Option.some.injEq] at hsplit
            exact ⟨bs, after, hsplit.2, hname, fun y hy => hbefore y (by simp [hy])⟩

theorem findItem_listingOf (items : List TidalItem) (name : String) :
    findItem (listingOf items) name
      = .ret (items.find? (fun it => decide (it.Name = name))) := by
  simp [findItem, listingOf, findItemLoop_map_some]

/-- C1 (`findItem`): on a listing of non-nil items `findItem` always returns,
never panics; it returns an item exactly when that item is the first one in
listing order whose `Name` equals the name (the listing splits as
`before ++ item :: after` with no item of `before` carrying the name); it
returns nil exactly when no item of the listing carries the name; and when
the name occurs exactly once, that one item is returned. -/
theorem findItem_first_match (items : List TidalItem) (name : String) :
    (∃ r, findItem (listingOf items) name = .ret r) ∧
    (∀ item, findItem (listingOf items) name = .ret (some item) ↔
      ∃ before after, items = before ++ item :: after ∧ item.Name = name ∧
        ∀ x ∈ before, x.Name ≠ name) ∧
    (findItem (listingOf items) name = .ret none ↔ ∀ x ∈ items, x.Name ≠ name) ∧
    (∀ item, items.filter (fun it => decide (it.Name = name)) = [item] →
      findItem (listingOf items) name = .ret (some item)) := by
  rw [findItem_listingOf]
  refine ⟨⟨_, rfl⟩, ?_, ?_, ?_⟩
  · intro item
    constructor
    · intro h
      have h' : items.find? (fun it => decide (it.Name = name)) = some item := by
        simpa using h
      obtain ⟨hp, before, after, hsplit, hbefore⟩ := List.find?_eq_some.1 h'
      refine ⟨before, after, hsplit, by simpa using hp, ?_⟩
      intro x hx
      simpa using hbefore x hx
    · rintro ⟨before, after, hsplit, hname, hbefore⟩
      have : items.find? (fun it => decide (it.Name = name)) = some item := by
        apply List.find?_eq_some.2
        refine ⟨by simpa using hname, before, after, hsplit, ?_⟩
        intro x hx
        simpa using hbefore x hx
      rw [this]
  · constructor
    · intro h
      have h' : items.find? (fun it => decide (it.Name = name)) = none := by
        simpa using h
      intro x hx
      simpa using List.find?_eq_none.1 h' x hx
    · intro h
      have : items.find? (fun it => decide (it.Name = name)) = none := by
        apply List.find?_eq_none.2
        intro x hx
        simpa using h x hx
      rw [this]
  · intro item hf
    have hhead : (items.filter (fun it => decide (it.Name = name))).head? = some item := by
      rw [hf]; rfl
    rw [List.filter_head?] at hhead
    rw [hhead]

/-! ### Lemmas on the HTTP helpers -/

theorem makeTidalRequest_eq (env : TidalEnv) (method : String) (url : URL) :
    makeTidalRequest env method url =
      match env.newRequestErr method url with
      | some err => ⟨.ret (none, some err), []⟩
      | none =>
        match env.Do (authorizedRequest env method url) with
        | .error err => ⟨.ret (none, some err), [.send (authorizedRequest env method url)]⟩
        | .ok resp =>
          if resp.StatusCode ≥ 400 then
            ⟨.ret (none, some (statusError resp.StatusCode)),
              [.send (authorizedRequest env method url)]⟩
          else
            ⟨.ret (some resp, none), [.send (authorizedRequest env method url)]⟩ := by
  unfold makeTidalRequest
  cases env.newRequestErr method url with
  | some err => rfl
  | none =>
    simp only [Run.bind, Run.emit, Run.pure]
    cases env.Do (authorizedRequest env method url) with
    | error err => rfl
    | ok resp =>
      by_cases h : resp.StatusCode ≥ 400 <;> simp [h]

/-- C6 (`makeTidalRequest`): when the request is built and the transport
succeeds with response `resp`, the function returns (it neither panics nor
ends the process), sends that one request, and its result is a nil response
with a non-nil error exactly when `resp.StatusCode >= 400`, and is
`(resp, nil)` exactly when the status code is below 400; no result with a
nil error is given for a status of 400 or more. -/
theorem makeTidalRequest_status (env : TidalEnv) (method : String) (url : URL)
    (resp : Response)
    (hreq : env.newRequestErr method url = none)
    (hdo : env.Do (authorizedRequest env method url) = .ok resp) :
    (∃ r, (makeTidalRequest env method url).res = .ret r) ∧
    (makeTidalRequest env method url).trace = [.send (authorizedRequest env method url)] ∧
    ((∃ e, (makeTidalRequest env method url).res = .ret (none, some e)) ↔
      resp.StatusCode ≥ 400) ∧
    ((makeTidalRequest env method url).res = .ret (some resp, none) ↔
      resp.StatusCode < 400) ∧
    (∀ r, (makeTidalRequest env method url).res = .ret (r, none) →
      resp.StatusCode < 400) := by
  rw [makeTidalRequest_eq, hreq]
  simp only [hdo]
  by_cases h : resp.StatusCode ≥ 400
  · have h2 : ¬ resp.StatusCode < 400 := by omega
    simp [h, h2]
  · have h2 : resp.StatusCode < 400 := by omega
    simp [h, h2]

theorem makeTidalRequest_status_witness :
    env404.newRequestErr "GET" (listingURL "root") = none ∧
    env404.Do (authorizedRequest env404 "GET" (listingURL "root")) = status 404 ∧
    (∃ e, (makeTidalRequest env404 "GET" (listingURL "root")).res = .ret (none, some e)) ∧
    (makeTidalRequest env404 "GET" (listingURL "root")).res
      = .ret (none, some "Tidal returned error code %!s(int=404)") :=
  ⟨rfl, rfl,
    (makeTidalRequest_status env404 "GET" (listingURL "root")
      { StatusCode := 404, Body := .ok "" } rfl rfl).2.2.1.2 (by decide),
    rfl⟩

/-! ### Lemmas on runs -/

theorem Run.bind_of_ret {α β : Type} {x : Run α} {a : α} (h : x.res = .ret a)
    (f : α → Run β) : Run.bind x f = ⟨(f a).res, x.trace ++ (f a).trace⟩ := by
  simp [Run.bind, h]

theorem Run.bind_of_panic {α β : Type} {x : Run α} (h : x.res = .panic)
    (f : α → Run β) : Run.bind x f = ⟨.panic, x.trace⟩ := by
  simp [Run.bind, h]

@[simp] theorem Run.bind_mk_ret {α β : Type} (a : α) (t : List Event) (f : α → Run β) :
    Run.bind ⟨.ret a, t⟩ f = ⟨(f a).res, t ++ (f a).trace⟩ := by
  simp [Run.bind]

@[simp] theorem Run.bind_mk_panic {α β : Type} (t : List Event) (f : α → Run β) :
    Run.bind ⟨.panic, t⟩ f = ⟨.panic, t⟩ := by
  simp [Run.bind]

@[simp] theorem Run.bind_mk_fatal {α β : Type} (msg : String) (err : Option String)
    (t : List Event) (f : α → Run β) :
    Run.bind ⟨.fatal msg err, t⟩ f = ⟨.fatal msg err, t⟩ := by
  simp [Run.bind]

@[simp] theorem Run.bind_pure {α β : Type} (a : α) (f : α → Run β) :
    Run.bind (Run.pure a) f = f a := by
  simp [Run.bind, Run.pure]

@[simp] theorem Run.bind_emit {β : Type} (e : Event) (f : Unit → Run β) :
    Run.bind (Run.emit e) f = ⟨(f ()).res, e :: (f ()).trace⟩ := by
  simp [Run.bind, Run.emit]

@[simp] theorem Run.bind_lift_ret {α β : Type} (a : α) (f : α → Run β) :
    Run.bind (Run.lift (.ret a)) f = f a := by
  simp [Run.bind, Run.lift]

@[simp] theorem Run.bind_lift_panic {α β : Type} (f : α → Run β) :
    Run.bind (Run.lift (.panic : Res α)) f = ⟨.panic, []⟩ := by
  simp [Run.bind, Run.lift]

@[simp] theorem Run.bind_fatal {α β : Type} (msg : String) (err : Option String)
    (f : α → Run β) : Run.bind (Run.fatal msg err : Run α) f = ⟨.fatal msg err, []⟩ := by
  simp [Run.bind, Run.fatal]

theorem createFolderCalls_append (s t : List Event) :
    createFolderCalls (s ++ t) = createFolderCalls s ++ createFolderCalls t := by
  induction s with
  | nil => rfl
  | cons e s ih => cases e <;> simp [createFolderCalls, ih]

theorem createPlaylistCalls_append (s t : List Event) :
    createPlaylistCalls (s ++ t) = createPlaylistCalls s ++ createPlaylistCalls t := by
  induction s with
  | nil => rfl
  | cons e s ih => cases e <;> simp [createPlaylistCalls, ih]

theorem listingCalls_append (s t : List Event) :
    listingCalls (s ++ t) = listingCalls s ++ listingCalls t := by
  induction s with
  | nil => rfl
  | cons e s ih => cases e <;> simp [listingCalls, ih]

theorem sentRequests_append (s t : List Event) :
    sentRequests (s ++ t) = sentRequests s ++ sentRequests t := by
  induction s with
  | nil => rfl
  | cons e s ih => cases e <;> simp [sentRequests, ih]

/-- The trace of `makeTidalRequest`: nothing when the request cannot be
built, the one request otherwise. -/
theorem makeTidalRequest_trace (env : TidalEnv) (method : String) (url : URL) :
    (makeTidalRequest env method url).trace =
      match env.newRequestErr method url with
      | some _ => []
      | none => [.send (authorizedRequest env method url)] := by
  rw [makeTidalRequest_eq]
  cases env.newRequestErr method url with
  | some err => rfl
  | none =>
    dsimp only
    cases env.Do (authorizedRequest env method url) with
    | error err => rfl
    | ok resp => by_cases h : resp.StatusCode ≥ 400 <;> simp [h]

/-- What `getTidalFolders` computes for a folder (the root stand-in when the
argument is nil) whose `Data` is `d`. -/
theorem getTidalFolders_eq (env : TidalEnv) (folder : Option TidalItem) (d : TidalItemData)
    (hd : itemData (match folder with | none => some rootItem | some f => some f) = .ret d) :
    getTidalFolders env folder =
      ⟨match env.newRequestErr "GET" (listingURL d.Id) with
        | some err => .ret (none, some err)
        | none =>
          match env.Do (authorizedRequest env "GET" (listingURL d.Id)) with
          | .error err => .ret (none, some err)
          | .ok resp =>
            if resp.StatusCode ≥ 400 then .ret (none, some (statusError resp.StatusCode))
            else
              match resp.Body with
              | .error err => .ret (none, some err)
              | .ok body =>
                match env.unmarshalFolders body with
                | .error err => .ret (none, some err)
                | .ok listing => .ret (some listing, none),
       .listing folder :: (makeTidalRequest env "GET" (listingURL d.Id)).trace⟩ := by
  unfold getTidalFolders
  simp only [Run.bind_emit, hd, Run.bind_lift_ret]
  rw [makeTidalRequest_trace, makeTidalRequest_eq]
  cases env.newRequestErr "GET" (listingURL d.Id) with
  | some err => simp [Run.bind, Run.pure]
  | none =>
    dsimp only
    cases env.Do (authorizedRequest env "GET" (listingURL d.Id)) with
    | error err => simp [Run.bind, Run.pure]
    | ok resp =>
      by_cases h : resp.StatusCode ≥ 400
      · simp [h, Run.bind, Run.pure]
      · simp only [h, if_false, Run.bind, readResp, Run.lift, Run.pure]
        cases resp.Body with
        | error err => simp
        | ok body =>
          dsimp only
          cases env.unmarshalFolders body with
          | error err => simp
          | ok listing => simp

theorem getTidalFolders_panic (env : TidalEnv) (folder : Option TidalItem)
    (hd : itemData (match folder with | none => some rootItem | some f => some f) = .panic) :
    getTidalFolders env folder = ⟨.panic, [.listing folder]⟩ := by
  unfold getTidalFolders
  simp only [Run.bind_emit, hd, Run.bind_lift_panic]

theorem itemData_cases (item : Option TidalItem) :
    (∃ d, itemData item = .ret d) ∨ itemData item = .panic := by
  cases item with
  | none => exact Or.inr rfl
  | some it =>
    cases h : it.Data with
    | none => exact Or.inr (by simp [itemData, h])
    | some d => exact Or.inl ⟨d, by simp [itemData, h]⟩

/-- The trace of `getTidalFolders`: its entry event, then at most one
request, a `GET`, and no other event. -/
theorem getTidalFolders_trace (env : TidalEnv) (folder : Option TidalItem) :
    ∃ sends : List Request,
      (getTidalFolders env folder).trace = .listing folder :: sends.map Event.send ∧
      sends.length ≤ 1 ∧ ∀ r ∈ sends, r.Method = "GET" := by
  rcases itemData_cases (match folder with | none => some rootItem | some f => some f) with
    ⟨d, hd⟩ | hd
  · rw [getTidalFolders_eq env folder d hd]
    dsimp only
    rw [makeTidalRequest_trace]
    cases env.newRequestErr "GET" (listingURL d.Id) with
    | some err => exact ⟨[], rfl, by simp, by simp⟩
    | none =>
      exact ⟨[authorizedRequest env "GET" (listingURL d.Id)], rfl, by simp,
        by simp [authorizedRequest]⟩
  · rw [getTidalFolders_panic env folder hd]
    exact ⟨[], rfl, by simp, by simp⟩

theorem createFolderCalls_sends (sends : List Request) :
    createFolderCalls (sends.map Event.send) = [] := by
  induction sends with
  | nil => rfl
  | cons r t ih => simpa [createFolderCalls] using ih

theorem createPlaylistCalls_sends (sends : List Request) :
    createPlaylistCalls (sends.map Event.send) = [] := by
  induction sends with
  | nil => rfl
  | cons r t ih => simpa [createPlaylistCalls] using ih

theorem listingCalls_sends (sends : List Request) :
    listingCalls (sends.map Event.send) = [] := by
  induction sends with
  | nil => rfl
  | cons r t ih => simpa [listingCalls] using ih

theorem sentRequests_sends (sends : List Request) :
    sentRequests (sends.map Event.send) = sends := by
  induction sends with
  | nil => rfl
  | cons r t ih => simpa [sentRequests] using ih

theorem getTidalFolders_createFolderCalls (env : TidalEnv) (folder : Option TidalItem) :
    createFolderCalls (getTidalFolders env folder).trace = [] := by
  obtain ⟨sends, h, _, _⟩ := getTidalFolders_trace env folder
  rw [h]
  simp [createFolderCalls, createFolderCalls_sends]

theorem getTidalFolders_createPlaylistCalls (env : TidalEnv) (folder : Option TidalItem) :
    createPlaylistCalls (getTidalFolders env folder).trace = [] := by
  obtain ⟨sends, h, _, _⟩ := getTidalFolders_trace env folder
  rw [h]
  simp [createPlaylistCalls, createPlaylistCalls_sends]

theorem getTidalFolders_listingCalls (env : TidalEnv) (folder : Option TidalItem) :
    listingCalls (getTidalFolders env folder).trace = [folder] := by
  obtain ⟨sends, h, _, _⟩ := getTidalFolders_trace env folder
  rw [h]
  simp [listingCalls, listingCalls_sends]

/-- The outcomes of `getTidalFolders`: a listing with a nil error, a nil
listing with an error, or a panic; it never ends the process. -/
theorem getTidalFolders_res_cases (env : TidalEnv) (folder : Option TidalItem) :
    (∃ listing, (getTidalFolders env folder).res = .ret (some listing, none)) ∨
    (∃ e, (getTidalFolders env folder).res = .ret (none, some e)) ∨
    (getTidalFolders env folder).res = .panic := by
  rcases itemData_cases (match folder with | none => some rootItem | some f => some f) with
    ⟨d, hd⟩ | hd
  · rw [getTidalFolders_eq env folder d hd]
    dsimp only
    cases env.newRequestErr "GET" (listingURL d.Id) with
    | some err => exact Or.inr (Or.inl ⟨err, rfl⟩)
    | none =>
      dsimp only
      cases env.Do (authorizedRequest env "GET" (listingURL d.Id)) with
      | error err => exact Or.inr (Or.inl ⟨err, rfl⟩)
      | ok resp =>
        dsimp only
        by_cases h : resp.StatusCode ≥ 400
        · rw [if_pos h]; exact Or.inr (Or.inl ⟨_, rfl⟩)
        · rw [if_neg h]
          cases resp.Body with
          | error err => exact Or.inr (Or.inl ⟨err, rfl⟩)
          | ok body =>
            dsimp only
            cases env.unmarshalFolders body with
            | error err => exact Or.inr (Or.inl ⟨err, rfl⟩)
            | ok listing => exact Or.inl ⟨listing, rfl⟩
  · rw [getTidalFolders_panic env folder hd]
    exact Or.inr (Or.inr rfl)

theorem getTidalFolders_root_res_cases (env : TidalEnv) :
    (∃ listing, (getTidalFolders env none).res = .ret (some listing, none)) ∨
    (∃ e, (getTidalFolders env none).res = .ret (none, some e)) := by
  rcases getTidalFolders_res_cases env none with h | h | h
  · exact Or.inl h
  · exact Or.inr h
  · rw [getTidalFolders_eq env none ⟨"root", ""⟩ rfl] at h
    dsimp only at h
    exfalso
    revert h
    cases env.newRequestErr "GET" (listingURL "root") with
    | some err => simp
    | none =>
      dsimp only
      cases env.Do (authorizedRequest env "GET" (listingURL "root")) with
      | error err => simp
      | ok resp =>
        dsimp only
        by_cases h : resp.StatusCode ≥ 400
        · simp [h]
        · rw [if_neg h]
          cases resp.Body with
          | error err => simp
          | ok body =>
            dsimp only
            cases env.unmarshalFolders body with
            | error err => simp
            | ok listing => simp

/-! ## `findOrMakeTidalFolder` with the reserved name -/

/-- C3, as stated, fails: the root listing is fetched and holds an item named
`"spotify"`, but that item carries no `Data`, and the run panics on
`folder.Data.Id` (line 271) instead of returning the item. -/
theorem findOrMakeTidalFolder_listed_without_data :
    folderName spotifyNoDataEnv = "spotify" ∧
    (getTidalFolders spotifyNoDataEnv none).res
      = .ret (some ⟨[some { ItemType := "FOLDER", Name := "spotify", Data := none }]⟩, none) ∧
    findItem (some ⟨[some { ItemType := "FOLDER", Name := "spotify", Data := none }]⟩) "spotify"
      = .ret (some { ItemType := "FOLDER", Name := "spotify", Data := none }) ∧
    (findOrMakeTidalFolder spotifyNoDataEnv).res = .panic :=
  ⟨rfl, rfl, rfl, rfl⟩

/-- C3, amended (`findOrMakeTidalFolder`, folder listed): for every folder
name other than `"root"` and every successfully fetched root listing in which
`findItem` selects an item for that name, if the selected item carries a
`Data` object then `findOrMakeTidalFolder` returns that item with a nil
error, and its trace is that of the listing call: no create-folder call is
made and no request other than the listing `GET` is sent. -/
theorem findOrMakeTidalFolder_listed (env : TidalEnv) (listing : TidalFolderResponse)
    (item : TidalItem)
    (hname : folderName env ≠ "root")
    (hlist : (getTidalFolders env none).res = .ret (some listing, none))
    (hfind : findItem (some listing) (folderName env) = .ret (some item))
    (hdata : item.Data ≠ none) :
    (findOrMakeTidalFolder env).res = .ret (some item, none) ∧
    item.Name = folderName env ∧ some item ∈ listing.Items ∧
    (findOrMakeTidalFolder env).trace = (getTidalFolders env none).trace ∧
    createFolderCalls (findOrMakeTidalFolder env).trace = [] ∧
    (∀ r ∈ sentRequests (findOrMakeTidalFolder env).trace, r.Method = "GET") := by
  obtain ⟨d, hd⟩ : ∃ d, item.Data = some d := Option.ne_none_iff_exists'.1 hdata
  have hrun : findOrMakeTidalFolder env
      = ⟨.ret (some item, none), (getTidalFolders env none).trace⟩ := by
    unfold findOrMakeTidalFolder
    rw [Run.bind_of_ret hlist]
    simp [hname, hfind, itemData, hd, Run.pure]
  have hmem := findItemLoop_some_name listing.Items (folderName env) item (by simpa [findItem] using hfind)
  refine ⟨by rw [hrun], hmem.1, hmem.2, by rw [hrun], ?_, ?_⟩
  · rw [hrun]
    exact getTidalFolders_createFolderCalls env none
  · rw [hrun]
    obtain ⟨sends, h, _, hget⟩ := getTidalFolders_trace env none
    dsimp only
    rw [h]
    simpa [sentRequests, sentRequests_sends] using hget

theorem findOrMakeTidalFolder_listed_witness :
    folderName spotifyEnv ≠ "root" ∧
    (findOrMakeTidalFolder spotifyEnv).res = .ret (some (folderItem "spotify" "f-1"), none) ∧
    createFolderCalls (findOrMakeTidalFolder spotifyEnv).trace = [] :=
  ⟨by decide,
    (findOrMakeTidalFolder_listed spotifyEnv
      ⟨[some (playlistItem "mix" "p-1" "u-1"), some (folderItem "spotify" "f-1")]⟩
      (folderItem "spotify" "f-1") (by decide) rfl rfl (by decide)).1,
    (findOrMakeTidalFolder_listed spotifyEnv
      ⟨[some (playlistItem "mix" "p-1" "u-1"), some (folderItem "spotify" "f-1")]⟩
      (folderItem "spotify" "f-1") (by decide) rfl rfl (by decide)).2.2.2.2.1⟩

/-! ## `findOrMakeTidalFolder` when the folder is not listed -/

theorem findItem_none_iff (listing : TidalFolderResponse) (name : String) :
    findItem (some listing) name = .ret none ↔
      ∀ x ∈ listing.Items, ∃ it : TidalItem, x = some it ∧ it.Name ≠ name := by
  constructor
  · intro h
    exact findItemLoop_none listing.Items name (by simpa [findItem] using h)
  · intro h
    show findItemLoop listing.Items name = .ret none
    generalize listing.Items = items at h
    induction items with
    | nil => rfl
    | cons x rest ih =>
      obtain ⟨it, hx, hn⟩ := h x (by simp)
      subst hx
      simp only [findItemLoop, hn, if_false]
      exact ih (fun y hy => h y (by simp [hy]))

/-- What `makeTidalFolder` computes. -/
theorem makeTidalFolder_eq (env : TidalEnv) (name : String) :
    makeTidalFolder env name =
      ⟨match env.newRequestErr "PUT" (createFolderURL name) with
        | some err => .ret (none, some err)
        | none =>
          match env.Do (authorizedRequest env "PUT" (createFolderURL name)) with
          | .error err => .ret (none, some err)
          | .ok resp =>
            if resp.StatusCode ≥ 400 then .ret (none, some (statusError resp.StatusCode))
            else
              match readResp (some resp) with
              | .ret (body, _) =>
                (match env.unmarshalItem body with
                 | .error err => .ret (none, some err)
                 | .ok folder => .ret (some folder, none))
              | .fatal msg err => .fatal msg err
              | .panic => .panic,
       .createFolder name :: (makeTidalRequest env "PUT" (createFolderURL name)).trace⟩ := by
  unfold makeTidalFolder
  simp only [Run.bind_emit]
  rw [makeTidalRequest_trace, makeTidalRequest_eq]
  cases env.newRequestErr "PUT" (createFolderURL name) with
  | some err => simp [Run.pure]
  | none =>
    dsimp only
    cases env.Do (authorizedRequest env "PUT" (createFolderURL name)) with
    | error err => simp [Run.pure]
    | ok resp =>
      by_cases h : resp.StatusCode ≥ 400
      · simp [h, Run.pure]
      · simp only [h, if_false, Run.bind_mk_ret, readResp, Run.lift, Run.pure]
        cases resp.Body with
        | error err =>
          dsimp only
          cases hu : env.unmarshalItem "" <;> simp [hu]
        | ok body =>
          dsimp only
          cases hu : env.unmarshalItem body <;> simp [hu]

/-- The outcomes of `makeTidalFolder`: an item with a nil error, or a nil
item with an error. -/
theorem makeTidalFolder_res_cases (env : TidalEnv) (name : String) :
    (∃ item, (makeTidalFolder env name).res = .ret (some item, none)) ∨
    (∃ e, (makeTidalFolder env name).res = .ret (none, some e)) := by
  rw [makeTidalFolder_eq]
  dsimp only
  cases env.newRequestErr "PUT" (createFolderURL name) with
  | some err => exact Or.inr ⟨err, rfl⟩
  | none =>
    dsimp only
    cases env.Do (authorizedRequest env "PUT" (createFolderURL name)) with
    | error err => exact Or.inr ⟨err, rfl⟩
    | ok resp =>
      dsimp only
      by_cases h : resp.StatusCode ≥ 400
      · rw [if_pos h]; exact Or.inr ⟨_, rfl⟩
      · rw [if_neg h]
        simp only [readResp]
        cases resp.Body with
        | error err =>
          dsimp only
          cases env.unmarshalItem "" with
          | error e => exact Or.inr ⟨e, rfl⟩
          | ok item => exact Or.inl ⟨item, rfl⟩
        | ok body =>
          dsimp only
          cases env.unmarshalItem body with
          | error e => exact Or.inr ⟨e, rfl⟩
          | ok item => exact Or.inl ⟨item, rfl⟩

theorem makeTidalFolder_createFolderCalls (env : TidalEnv) (name : String) :
    createFolderCalls (makeTidalFolder env name).trace = [name] := by
  rw [makeTidalFolder_eq]
  dsimp only
  rw [makeTidalRequest_trace]
  cases env.newRequestErr "PUT" (createFolderURL name) <;> simp [createFolderCalls]

theorem makeTidalFolder_listingCalls (env : TidalEnv) (name : String) :
    listingCalls (makeTidalFolder env name).trace = [] := by
  rw [makeTidalFolder_eq]
  dsimp only
  rw [makeTidalRequest_trace]
  cases env.newRequestErr "PUT" (createFolderURL name) <;> simp [listingCalls]

/-- The run of `findOrMakeTidalFolder` after a fetched listing in which
`findItem` finds nothing. -/
theorem findOrMakeTidalFolder_miss_eq (env : TidalEnv) (listing : TidalFolderResponse)
    (hname : folderName env ≠ "root")
    (hlist : (getTidalFolders env none).res = .ret (some listing, none))
    (hfind : findItem (some listing) (folderName env) = .ret none) :
    findOrMakeTidalFolder env =
      ⟨match (makeTidalFolder env (folderName env)).res with
        | .ret (_, some e) => .fatal "Failed to create folder" (some e)
        | .ret (none, none) => .fatal "Failed to find a folder" none
        | .ret (some item, none) =>
          (match item.Data with
           | some _ => .ret (some item, none)
           | none => .panic)
        | .fatal msg err => .fatal msg err
        | .panic => .panic,
       (getTidalFolders env none).trace ++ (makeTidalFolder env (folderName env)).trace⟩ := by
  unfold findOrMakeTidalFolder
  rw [Run.bind_of_ret hlist]
  simp only [hname, if_false, hfind, Run.bind_lift_ret]
  generalize makeTidalFolder env (folderName env) = x
  rcases x with ⟨res, t⟩
  cases res with
  | ret a =>
    rcases a with ⟨it, err⟩
    cases err with
    | some e => simp [Run.fatal]
    | none =>
      cases it with
      | none => simp [Run.fatal]
      | some item =>
        cases hd : item.Data <;> simp [Run.pure, Run.lift, itemData, hd]
  | fatal msg err => simp
  | panic => simp

/-- The trace of a fetched listing of the root: the entry event and the one
`GET` request. -/
theorem getTidalFolders_root_ok_trace (env : TidalEnv) (listing : TidalFolderResponse)
    (hlist : (getTidalFolders env none).res = .ret (some listing, none)) :
    (getTidalFolders env none).trace
      = [.listing none, .send (authorizedRequest env "GET" (listingURL "root"))] := by
  rw [getTidalFolders_eq env none ⟨"root", ""⟩ rfl] at hlist ⊢
  dsimp only at hlist ⊢
  rw [makeTidalRequest_trace]
  revert hlist
  cases env.newRequestErr "GET" (listingURL "root") with
  | some err => simp
  | none => simp

theorem string_append_ne_empty (a b : String) (h : a ≠ "") : a ++ b ≠ "" := by
  intro hab
  apply h
  have hl := congrArg String.length hab
  simp only [String.length_append] at hl
  have h0 : a.length = 0 := by
    have : ("" : String).length = 0 := rfl
    omega
  apply String.ext
  exact List.length_eq_zero.1 h0

/-- The text that `makeTidalFolder` hands to `http.NewRequest`: the name is put
into the query as it stands. -/
theorem createFolderURL_text (name : String) :
    urlString (createFolderURL name)
      = "https://listen.tidal.com/v2/my-collection/playlists/folders/create-folder?folderId=root&name="
          ++ name ++ "&trns=&countryCode=US&locale=en_US&deviceType=BROWSER" := by
  have hq : ("folderId=root&name=" ++ name ++
      "&trns=&countryCode=US&locale=en_US&deviceType=BROWSER") ≠ "" := by
    rw [String.append_assoc]
    exact string_append_ne_empty _ _ (by decide)
  simp only [urlString, createFolderURL, buildTidalURL, tidalHost, hq, if_false]
  simp only [← String.append_assoc]
  rfl

/-- C4, as stated, fails: with the name absent from the fetched listing,
(1) when the create call is answered with 500 the one create-folder call is
made and its `PUT` is sent, but the process ends and nothing is returned;
(2) when the create call succeeds and its body decodes to an item that
carries no `Data`, the run panics on `folder.Data.Id` (line 271) instead of
returning the parsed item; (3) when `http.NewRequest` refuses the URL text
(a tab in the name), `makeTidalFolder` is entered once but no `PUT` is sent
at all, and the process ends. -/
theorem findOrMakeTidalFolder_create_not_returned :
    folderName newfolderRefusedEnv = "newfolder" ∧
    findItem (some ⟨[some (folderItem "spotify" "f-1")]⟩) "newfolder" = .ret none ∧
    (getTidalFolders newfolderRefusedEnv none).res
      = .ret (some ⟨[some (folderItem "spotify" "f-1")]⟩, none) ∧
    createFolderCalls (findOrMakeTidalFolder newfolderRefusedEnv).trace = ["newfolder"] ∧
    sentRequests (findOrMakeTidalFolder newfolderRefusedEnv).trace
      = [authorizedRequest newfolderRefusedEnv "GET" (listingURL "root"),
         authorizedRequest newfolderRefusedEnv "PUT" (createFolderURL "newfolder")] ∧
    (findOrMakeTidalFolder newfolderRefusedEnv).res
      = .fatal "Failed to create folder" (some "Tidal returned error code %!s(int=500)") ∧
    folderName newfolderNoDataEnv = "newfolder" ∧
    (getTidalFolders newfolderNoDataEnv none).res
      = .ret (some ⟨[some (folderItem "spotify" "f-1")]⟩, none) ∧
    (makeTidalFolder newfolderNoDataEnv "newfolder").res
      = .ret (some { ItemType := "FOLDER", Name := "newfolder", Data := none }, none) ∧
    (findOrMakeTidalFolder newfolderNoDataEnv).res = .panic ∧
    folderName tabEnv = "a\tb" ∧
    (getTidalFolders tabEnv none).res = .ret (some ⟨[]⟩, none) ∧
    createFolderCalls (findOrMakeTidalFolder tabEnv).trace = ["a\tb"] ∧
    sentRequests (findOrMakeTidalFolder tabEnv).trace
      = [authorizedRequest tabEnv "GET" (listingURL "root")] ∧
    (∃ e, (findOrMakeTidalFolder tabEnv).res = .fatal "Failed to create folder" (some e)) :=
  ⟨rfl, rfl, rfl, rfl, rfl, rfl, rfl, rfl, rfl, rfl, rfl, rfl, rfl, rfl, ⟨_, rfl⟩⟩

/-- C4, amended (`findOrMakeTidalFolder`, folder name other than `"root"`).
(a) Exactly one listing call is made (so at most one).
(b) `makeTidalFolder` is entered only when the listing was fetched and none of
its items, all non-nil, has the name; a `PUT` is sent only then.
(c) When the listing was fetched and none of its items, all non-nil, has the
name: `makeTidalFolder` is entered exactly once, for that name, right after
the listing.  The request it builds has method `PUT` and, as the text handed
to `http.NewRequest`, the create-folder URL whose query is
`folderId=root&name=<name>&trns=&...`, the name put in as it stands.  When
`http.NewRequest` accepts that text, exactly that one `PUT` is sent, after
the listing `GET`; when it refuses the text, no `PUT` is sent and the process
ends in `log.Fatal("Failed to create folder", err)`.
(d) Whenever the create call returns an error the process ends in
`log.Fatal("Failed to create folder", err)`: for a transport error, for a
status of 400 or more, and for a body that does not decode.
(e) When the `PUT` is answered with a status below 400 and the body read from
it decodes to an item that carries a `Data` object, that item is returned
with a nil error. -/
theorem findOrMakeTidalFolder_create (env : TidalEnv) (hname : folderName env ≠ "root") :
    listingCalls (findOrMakeTidalFolder env).trace = [none] ∧
    (createFolderCalls (findOrMakeTidalFolder env).trace ≠ [] →
      ∃ listing, (getTidalFolders env none).res = .ret (some listing, none) ∧
        ∀ x ∈ listing.Items, ∃ it : TidalItem, x = some it ∧ it.Name ≠ folderName env) ∧
    (∀ r ∈ sentRequests (findOrMakeTidalFolder env).trace, r.Method = "PUT" →
      r = authorizedRequest env "PUT" (createFolderURL (folderName env)) ∧
      ∃ listing, (getTidalFolders env none).res = .ret (some listing, none) ∧
        ∀ x ∈ listing.Items, ∃ it : TidalItem, x = some it ∧ it.Name ≠ folderName env) ∧
    (∀ listing, (getTidalFolders env none).res = .ret (some listing, none) →
      (∀ x ∈ listing.Items, ∃ it : TidalItem, x = some it ∧ it.Name ≠ folderName env) →
      (findOrMakeTidalFolder env).trace
        = (getTidalFolders env none).trace ++
            .createFolder (folderName env) ::
              (makeTidalRequest env "PUT" (createFolderURL (folderName env))).trace ∧
      createFolderCalls (findOrMakeTidalFolder env).trace = [folderName env] ∧
      (∀ r ∈ sentRequests (findOrMakeTidalFolder env).trace,
        r = authorizedRequest env "GET" (listingURL "root") ∨
        r = authorizedRequest env "PUT" (createFolderURL (folderName env))) ∧
      (authorizedRequest env "PUT" (createFolderURL (folderName env))).Method = "PUT" ∧
      (authorizedRequest env "PUT" (createFolderURL (folderName env))).Target
        = "https://listen.tidal.com/v2/my-collection/playlists/folders/create-folder?folderId=root&name="
            ++ folderName env ++ "&trns=&countryCode=US&locale=en_US&deviceType=BROWSER" ∧
      (env.newRequestErr "PUT" (createFolderURL (folderName env)) = none →
        (findOrMakeTidalFolder env).trace
          = [.listing none, .send (authorizedRequest env "GET" (listingURL "root")),
             .createFolder (folderName env),
             .send (authorizedRequest env "PUT" (createFolderURL (folderName env)))] ∧
        sentRequests (findOrMakeTidalFolder env).trace
          = [authorizedRequest env "GET" (listingURL "root"),
             authorizedRequest env "PUT" (createFolderURL (folderName env))]) ∧
      (∀ e, env.newRequestErr "PUT" (createFolderURL (folderName env)) = some e →
        (findOrMakeTidalFolder env).trace
          = [.listing none, .send (authorizedRequest env "GET" (listingURL "root")),
             .createFolder (folderName env)] ∧
        sentRequests (findOrMakeTidalFolder env).trace
          = [authorizedRequest env "GET" (listingURL "root")] ∧
        (findOrMakeTidalFolder env).res = .fatal "Failed to create folder" (some e)) ∧
      (∀ e, (makeTidalFolder env (folderName env)).res = .ret (none, some e) →
        (findOrMakeTidalFolder env).res = .fatal "Failed to create folder" (some e)) ∧
      (env.newRequestErr "PUT" (createFolderURL (folderName env)) = none →
        (∀ e,
          env.Do (authorizedRequest env "PUT" (createFolderURL (folderName env))) = .error e →
          (findOrMakeTidalFolder env).res = .fatal "Failed to create folder" (some e)) ∧
        (∀ resp,
          env.Do (authorizedRequest env "PUT" (createFolderURL (folderName env))) = .ok resp →
          resp.StatusCode ≥ 400 →
          (findOrMakeTidalFolder env).res
            = .fatal "Failed to create folder" (some (statusError resp.StatusCode))) ∧
        (∀ resp body rerr e,
          env.Do (authorizedRequest env "PUT" (createFolderURL (folderName env))) = .ok resp →
          resp.StatusCode < 400 →
          readResp (some resp) = .ret (body, rerr) →
          env.unmarshalItem body = .error e →
          (findOrMakeTidalFolder env).res = .fatal "Failed to create folder" (some e)) ∧
        (∀ resp body rerr item,
          env.Do (authorizedRequest env "PUT" (createFolderURL (folderName env))) = .ok resp →
          resp.StatusCode < 400 →
          readResp (some resp) = .ret (body, rerr) →
          env.unmarshalItem body = .ok item →
          item.Data ≠ none →
          (makeTidalFolder env (folderName env)).res = .ret (some item, none) ∧
          (findOrMakeTidalFolder env).res = .ret (some item, none)))) := by
  -- the run in each of the cases of the listing and of the scan
  have herr : ∀ e, (getTidalFolders env none).res = .ret (none, some e) →
      (findOrMakeTidalFolder env).trace = (getTidalFolders env none).trace := by
    intro e h
    unfold findOrMakeTidalFolder
    rw [Run.bind_of_ret h]
    simp [Run.fatal]
  have hpanic : ∀ listing, (getTidalFolders env none).res = .ret (some listing, none) →
      findItem (some listing) (folderName env) = .panic →
      (findOrMakeTidalFolder env).trace = (getTidalFolders env none).trace := by
    intro listing h hf
    unfold findOrMakeTidalFolder
    rw [Run.bind_of_ret h]
    simp [hname, hf]
  have hfound : ∀ listing item, (getTidalFolders env none).res = .ret (some listing, none) →
      findItem (some listing) (folderName env) = .ret (some item) →
      (findOrMakeTidalFolder env).trace = (getTidalFolders env none).trace := by
    intro listing item h hf
    unfold findOrMakeTidalFolder
    rw [Run.bind_of_ret h]
    cases hd : item.Data <;> simp [hname, hf, itemData, hd, Run.pure, Run.lift]
  have hfatal : ∀ (listing : TidalFolderResponse) msg err,
      findItem (some listing) (folderName env) ≠ .fatal msg err :=
    fun listing msg err => findItem_ne_fatal _ _ msg err
  -- without a miss the trace is that of the listing call
  have hnomiss : (¬ ∃ listing, (getTidalFolders env none).res = .ret (some listing, none) ∧
        ∀ x ∈ listing.Items, ∃ it : TidalItem, x = some it ∧ it.Name ≠ folderName env) →
      (findOrMakeTidalFolder env).trace = (getTidalFolders env none).trace := by
    intro hno
    rcases getTidalFolders_root_res_cases env with ⟨listing, h⟩ | ⟨e, h⟩
    · cases hf : findItem (some listing) (folderName env) with
      | ret r =>
        cases r with
        | none => exact absurd ⟨listing, h, (findItem_none_iff listing _).1 hf⟩ hno
        | some item => exact hfound listing item h hf
      | fatal msg err => exact absurd hf (hfatal listing msg err)
      | panic => exact hpanic listing h hf
    · exact herr e h
  have hmisstrace : ∀ listing, (getTidalFolders env none).res = .ret (some listing, none) →
      (∀ x ∈ listing.Items, ∃ it : TidalItem, x = some it ∧ it.Name ≠ folderName env) →
      (findOrMakeTidalFolder env).trace
        = (getTidalFolders env none).trace ++
            .createFolder (folderName env) ::
              (makeTidalRequest env "PUT" (createFolderURL (folderName env))).trace := by
    intro listing h hmiss
    rw [findOrMakeTidalFolder_miss_eq env listing hname h ((findItem_none_iff listing _).2 hmiss)]
    dsimp only
    rw [makeTidalFolder_eq]
  refine ⟨?_, ?_, ?_, ?_⟩
  · by_cases hex : ∃ listing, (getTidalFolders env none).res = .ret (some listing, none) ∧
        ∀ x ∈ listing.Items, ∃ it : TidalItem, x = some it ∧ it.Name ≠ folderName env
    · obtain ⟨listing, h, hmiss⟩ := hex
      rw [findOrMakeTidalFolder_miss_eq env listing hname h
        ((findItem_none_iff listing _).2 hmiss)]
      dsimp only
      rw [listingCalls_append, getTidalFolders_listingCalls, makeTidalFolder_listingCalls]
      rfl
    · rw [hnomiss hex, getTidalFolders_listingCalls]
  · intro hne
    by_contra hex
    rw [hnomiss hex, getTidalFolders_createFolderCalls] at hne
    exact hne rfl
  · intro r hr hput
    by_cases hex : ∃ listing, (getTidalFolders env none).res = .ret (some listing, none) ∧
        ∀ x ∈ listing.Items, ∃ it : TidalItem, x = some it ∧ it.Name ≠ folderName env
    · refine ⟨?_, hex⟩
      obtain ⟨listing, h, hmiss⟩ := hex
      rw [hmisstrace listing h hmiss, getTidalFolders_root_ok_trace env listing h,
        makeTidalRequest_trace] at hr
      cases hreq : env.newRequestErr "PUT" (createFolderURL (folderName env)) with
      | some err =>
        simp only [hreq, sentRequests, List.cons_append, List.nil_append, List.mem_singleton] at hr
        rw [hr] at hput
        simp [authorizedRequest] at hput
      | none =>
        simp only [hreq, sentRequests, List.cons_append, List.nil_append, List.mem_cons,
          List.mem_singleton, List.not_mem_nil, or_false] at hr
        rcases hr with hr | hr
        · rw [hr] at hput
          simp [authorizedRequest] at hput
        · exact hr
    · exfalso
      rw [hnomiss hex] at hr
      obtain ⟨sends, h, _, hget⟩ := getTidalFolders_trace env none
      rw [h] at hr
      simp only [sentRequests, sentRequests_sends] at hr
      have := hget r hr
      rw [this] at hput
      exact absurd hput (by decide)
  · intro listing h hmiss
    have hf := (findItem_none_iff listing _).2 hmiss
    have hrun := findOrMakeTidalFolder_miss_eq env listing hname h hf
    have htr := hmisstrace listing h hmiss
    have hfail : ∀ e, (makeTidalFolder env (folderName env)).res = .ret (none, some e) →
        (findOrMakeTidalFolder env).res = .fatal "Failed to create folder" (some e) := by
      intro e hmk
      rw [hrun]
      simp [hmk]
    refine ⟨htr, ?_, ?_, rfl, ?_, ?_, ?_, hfail, ?_⟩
    · rw [hrun]
      dsimp only
      rw [createFolderCalls_append, getTidalFolders_createFolderCalls,
        makeTidalFolder_createFolderCalls]
      rfl
    · rw [htr, getTidalFolders_root_ok_trace env listing h, makeTidalRequest_trace]
      cases env.newRequestErr "PUT" (createFolderURL (folderName env)) <;>
        simp [sentRequests]
    · exact createFolderURL_text (folderName env)
    · intro hreq
      rw [htr, getTidalFolders_root_ok_trace env listing h, makeTidalRequest_trace, hreq]
      exact ⟨rfl, rfl⟩
    · intro e hreq
      refine ⟨?_, ?_, ?_⟩
      · rw [htr, getTidalFolders_root_ok_trace env listing h, makeTidalRequest_trace, hreq]
        rfl
      · rw [htr, getTidalFolders_root_ok_trace env listing h, makeTidalRequest_trace, hreq]
        rfl
      · apply hfail
        rw [makeTidalFolder_eq]
        simp [hreq]
    · intro hreq
      refine ⟨?_, ?_, ?_, ?_⟩
      · intro e hdo
        apply hfail
        rw [makeTidalFolder_eq]
        simp [hreq, hdo]
      · intro resp hdo hstatus
        apply hfail
        rw [makeTidalFolder_eq]
        simp [hreq, hdo, hstatus]
      · intro resp body rerr e hdo hstatus hread hdec
        have hge : ¬ resp.StatusCode ≥ 400 := by omega
        apply hfail
        rw [makeTidalFolder_eq]
        simp [hreq, hdo, hge, hread, hdec]
      · intro resp body rerr item hdo hstatus hread hdec hdata
        obtain ⟨d, hd⟩ : ∃ d, item.Data = some d := Option.ne_none_iff_exists'.1 hdata
        have hge : ¬ resp.StatusCode ≥ 400 := by omega
        have hmk : (makeTidalFolder env (folderName env)).res = .ret (some item, none) := by
          rw [makeTidalFolder_eq]
          simp [hreq, hdo, hge, hread, hdec]
        refine ⟨hmk, ?_⟩
        rw [hrun]
        simp [hmk, hd]

theorem findOrMakeTidalFolder_create_witness :
    folderName newfolderEnv ≠ "root" ∧
    (findOrMakeTidalFolder newfolderEnv).res
      = .ret (some (folderItem "newfolder" "f-2"), none) ∧
    (findOrMakeTidalFolder newfolderEnv).trace
      = [.listing none, .send (authorizedRequest newfolderEnv "GET" (listingURL "root")),
         .createFolder "newfolder",
         .send (authorizedRequest newfolderEnv "PUT" (createFolderURL "newfolder"))] ∧
    createFolderCalls (findOrMakeTidalFolder newfolderEnv).trace = ["newfolder"] ∧
    listingCalls (findOrMakeTidalFolder newfolderEnv).trace = [none] :=
  ⟨by decide,
    ((((findOrMakeTidalFolder_create newfolderEnv (by decide)).2.2.2
      ⟨[some (folderItem "spotify" "f-1")]⟩ rfl
      (by intro x hx; exact ⟨folderItem "spotify" "f-1", by simpa using hx, by decide⟩)).2.2.2.2.2.2.2.2
      rfl).2.2.2
      { StatusCode := 200, Body := .ok "created" } "created" none
      (folderItem "newfolder" "f-2") rfl (by decide) rfl rfl (by decide)).2,
    (((findOrMakeTidalFolder_create newfolderEnv (by decide)).2.2.2
      ⟨[some (folderItem "spotify" "f-1")]⟩ rfl
      (by intro x hx; exact ⟨folderItem "spotify" "f-1", by simpa using hx, by decide⟩)).2.2.2.2.2.1
      rfl).1,
    ((findOrMakeTidalFolder_create newfolderEnv (by decide)).2.2.2
      ⟨[some (folderItem "spotify" "f-1")]⟩ rfl
      (by intro x hx; exact ⟨folderItem "spotify" "f-1", by simpa using hx, by decide⟩)).2.1,
    (findOrMakeTidalFolder_create newfolderEnv (by decide)).1⟩

/-! ## `findOrMakeTidalPlaylist` -/

/-- What `makeTidalPlaylist` computes for a folder whose `Data` is `d`. -/
theorem makeTidalPlaylist_eq (env : TidalEnv) (folder : Option TidalItem) (name : String)
    (d : TidalItemData) (hd : itemData folder = .ret d) :
    makeTidalPlaylist env folder name =
      ⟨match env.newRequestErr "PUT" (createPlaylistURL d.Id name) with
        | some err => .ret (none, some err)
        | none =>
          match env.Do (authorizedRequest env "PUT" (createPlaylistURL d.Id name)) with
          | .error err => .ret (none, some err)
          | .ok resp =>
            if resp.StatusCode ≥ 400 then .ret (none, some (statusError resp.StatusCode))
            else
              match resp.Body with
              | .error err => .ret (none, some err)
              | .ok body =>
                match env.unmarshalItem body with
                | .error err => .ret (none, some err)
                | .ok playlist => .ret (some playlist, none),
       .createPlaylist folder name ::
          (makeTidalRequest env "PUT" (createPlaylistURL d.Id name)).trace⟩ := by
  unfold makeTidalPlaylist
  simp only [Run.bind_emit, hd, Run.bind_lift_ret]
  rw [makeTidalRequest_trace, makeTidalRequest_eq]
  cases env.newRequestErr "PUT" (createPlaylistURL d.Id name) with
  | some err => simp [Run.pure]
  | none =>
    dsimp only
    cases env.Do (authorizedRequest env "PUT" (createPlaylistURL d.Id name)) with
    | error err => simp [Run.pure]
    | ok resp =>
      by_cases h : resp.StatusCode ≥ 400
      · simp [h, Run.pure]
      · simp only [h, if_false, Run.bind_mk_ret, readResp, Run.lift, Run.pure]
        cases resp.Body with
        | error err => simp
        | ok body =>
          dsimp only
          cases hu : env.unmarshalItem body <;> simp [hu]

theorem makeTidalPlaylist_panic (env : TidalEnv) (folder : Option TidalItem) (name : String)
    (hd : itemData folder = .panic) :
    makeTidalPlaylist env folder name = ⟨.panic, [.createPlaylist folder name]⟩ := by
  unfold makeTidalPlaylist
  simp only [Run.bind_emit, hd, Run.bind_lift_panic]

/-- The outcomes of `makeTidalPlaylist`: an item with a nil error, a nil item
with an error, or a panic. -/
theorem makeTidalPlaylist_res_cases (env : TidalEnv) (folder : Option TidalItem)
    (name : String) :
    (∃ item, (makeTidalPlaylist env folder name).res = .ret (some item, none)) ∨
    (∃ e, (makeTidalPlaylist env folder name).res = .ret (none, some e)) ∨
    (makeTidalPlaylist env folder name).res = .panic := by
  rcases itemData_cases folder with ⟨d, hd⟩ | hd
  · rw [makeTidalPlaylist_eq env folder name d hd]
    dsimp only
    cases env.newRequestErr "PUT" (createPlaylistURL d.Id name) with
    | some err => exact Or.inr (Or.inl ⟨err, rfl⟩)
    | none =>
      dsimp only
      cases env.Do (authorizedRequest env "PUT" (createPlaylistURL d.Id name)) with
      | error err => exact Or.inr (Or.inl ⟨err, rfl⟩)
      | ok resp =>
        dsimp only
        by_cases h : resp.StatusCode ≥ 400
        · rw [if_pos h]; exact Or.inr (Or.inl ⟨_, rfl⟩)
        · rw [if_neg h]
          cases resp.Body with
          | error err => exact Or.inr (Or.inl ⟨err, rfl⟩)
          | ok body =>
            dsimp only
            cases env.unmarshalItem body with
            | error e => exact Or.inr (Or.inl ⟨e, rfl⟩)
            | ok item => exact Or.inl ⟨item, rfl⟩
  · rw [makeTidalPlaylist_panic env folder name hd]
    exact Or.inr (Or.inr rfl)

theorem makeTidalPlaylist_createPlaylistCalls (env : TidalEnv) (folder : Option TidalItem)
    (name : String) :
    createPlaylistCalls (makeTidalPlaylist env folder name).trace = [(folder, name)] := by
  rcases itemData_cases folder with ⟨d, hd⟩ | hd
  · rw [makeTidalPlaylist_eq env folder name d hd]
    dsimp only
    rw [makeTidalRequest_trace]
    cases env.newRequestErr "PUT" (createPlaylistURL d.Id name) <;> simp [createPlaylistCalls]
  · rw [makeTidalPlaylist_panic env folder name hd]
    rfl

/-- The run of `findOrMakeTidalPlaylist` when the listing call returns an
error. -/
theorem findOrMakeTidalPlaylist_error_eq (env : TidalEnv) (folder : Option TidalItem)
    (name : String) (r : Option TidalFolderResponse) (e : String)
    (hlist : (getTidalFolders env folder).res = .ret (r, some e)) :
    findOrMakeTidalPlaylist env folder name
      = ⟨.ret (none, some e), (getTidalFolders env folder).trace⟩ := by
  unfold findOrMakeTidalPlaylist
  rw [Run.bind_of_ret hlist]
  simp [Run.pure]

/-- The run of `findOrMakeTidalPlaylist` when `findItem` selects an item of
the fetched listing. -/
theorem findOrMakeTidalPlaylist_found_eq (env : TidalEnv) (folder : Option TidalItem)
    (name : String) (listing : TidalFolderResponse) (item : TidalItem)
    (hlist : (getTidalFolders env folder).res = .ret (some listing, none))
    (hfind : findItem (some listing) name = .ret (some item)) :
    findOrMakeTidalPlaylist env folder name
      = ⟨match item.Data with
          | some _ => .ret (some item, none)
          | none => .panic,
         (getTidalFolders env folder).trace⟩ := by
  unfold findOrMakeTidalPlaylist
  rw [Run.bind_of_ret hlist]
  cases hd : item.Data <;> simp [hfind, itemData, hd, Run.pure, Run.lift]

theorem findOrMakeTidalPlaylist_find_panic_eq (env : TidalEnv) (folder : Option TidalItem)
    (name : String) (listing : TidalFolderResponse)
    (hlist : (getTidalFolders env folder).res = .ret (some listing, none))
    (hfind : findItem (some listing) name = .panic) :
    findOrMakeTidalPlaylist env folder name = ⟨.panic, (getTidalFolders env folder).trace⟩ := by
  unfold findOrMakeTidalPlaylist
  rw [Run.bind_of_ret hlist]
  simp [hfind]

/-- The run of `findOrMakeTidalPlaylist` after a fetched listing in which
`findItem` finds nothing. -/
theorem findOrMakeTidalPlaylist_miss_eq (env : TidalEnv) (folder : Option TidalItem)
    (name : String) (listing : TidalFolderResponse)
    (hlist : (getTidalFolders env folder).res = .ret (some listing, none))
    (hfind : findItem (some listing) name = .ret none) :
    findOrMakeTidalPlaylist env folder name =
      ⟨match (makeTidalPlaylist env folder name).res with
        | .ret (_, some e) => .fatal "Failed to create playlist " (some e)
        | .ret (none, none) => .fatal "Failed to find a playlist" none
        | .ret (some item, none) =>
          (match item.Data with
           | some _ => .ret (some item, none)
           | none => .panic)
        | .fatal msg err => .fatal msg err
        | .panic => .panic,
       (getTidalFolders env folder).trace ++ (makeTidalPlaylist env folder name).trace⟩ := by
  unfold findOrMakeTidalPlaylist
  rw [Run.bind_of_ret hlist]
  simp only [hfind, Run.bind_lift_ret]
  generalize makeTidalPlaylist env folder name = x
  rcases x with ⟨res, t⟩
  cases res with
  | ret a =>
    rcases a with ⟨it, err⟩
    cases err with
    | some e => simp [Run.fatal]
    | none =>
      cases it with
      | none => simp [Run.fatal]
      | some item =>
        cases hd : item.Data <;> simp [Run.pure, Run.lift, itemData, hd]
  | fatal msg err => simp
  | panic => simp

/-- C5, as stated, fails: the fetched listing of the folder holds a folder
item named `"mix"`; `findOrMakeTidalPlaylist` returns that item for the name
`"mix"` with a nil error and without a create-playlist call, and its type tag
is `"FOLDER"`, not the playlist tag. -/
theorem findOrMakeTidalPlaylist_returns_folder :
    (getTidalFolders mixFolderEnv (some (folderItem "spotify" "f-1"))).res
      = .ret (some ⟨[some (folderItem "mix" "f-9")]⟩, none) ∧
    (findOrMakeTidalPlaylist mixFolderEnv (some (folderItem "spotify" "f-1")) "mix").res
      = .ret (some (folderItem "mix" "f-9"), none) ∧
    createPlaylistCalls
      (findOrMakeTidalPlaylist mixFolderEnv (some (folderItem "spotify" "f-1")) "mix").trace
      = [] ∧
    (folderItem "mix" "f-9").ItemType = "FOLDER" ∧
    (folderItem "mix" "f-9").ItemType ≠ "PLAYLIST" :=
  ⟨rfl, rfl, rfl, rfl, by decide⟩

/-- C5, amended (`findOrMakeTidalPlaylist`, item taken from the listing): for
every folder, name and successfully fetched listing of that folder, whenever
the function returns without a create-playlist call, what it returns is, with
a nil error, the item `findItem` selects: an item of the listing whose `Name`
equals the requested name, and the first such.  The type tag is not looked
at: every item that `findItem` selects and that carries a `Data` object is
returned, whatever its `ItemType`, and no create-playlist call is made. -/
theorem findOrMakeTidalPlaylist_listed (env : TidalEnv) (folder : Option TidalItem)
    (name : String) (listing : TidalFolderResponse)
    (hlist : (getTidalFolders env folder).res = .ret (some listing, none)) :
    (∀ item e, (findOrMakeTidalPlaylist env folder name).res = .ret (item, e) →
      createPlaylistCalls (findOrMakeTidalPlaylist env folder name).trace = [] →
      ∃ it, item = some it ∧ e = none ∧ findItem (some listing) name = .ret (some it) ∧
        it.Name = name ∧ some it ∈ listing.Items) ∧
    (∀ it, findItem (some listing) name = .ret (some it) → it.Data ≠ none →
      (findOrMakeTidalPlaylist env folder name).res = .ret (some it, none) ∧
      (findOrMakeTidalPlaylist env folder name).trace = (getTidalFolders env folder).trace ∧
      createPlaylistCalls (findOrMakeTidalPlaylist env folder name).trace = []) := by
  constructor
  · intro item e hres hcalls
    cases hf : findItem (some listing) name with
    | ret r =>
      cases r with
      | none =>
        rw [findOrMakeTidalPlaylist_miss_eq env folder name listing hlist hf] at hcalls
        dsimp only at hcalls
        rw [createPlaylistCalls_append, makeTidalPlaylist_createPlaylistCalls] at hcalls
        simp at hcalls
      | some it =>
        rw [findOrMakeTidalPlaylist_found_eq env folder name listing it hlist hf] at hres
        dsimp only at hres
        have hmem := findItemLoop_some_name listing.Items name it (by simpa [findItem] using hf)
        cases hd : it.Data with
        | none => simp [hd] at hres
        | some d =>
          simp only [hd, Res.ret.injEq, Prod.mk.injEq] at hres
          exact ⟨it, hres.1.symm, hres.2.symm, rfl, hmem.1, hmem.2⟩
    | fatal msg err => exact absurd hf (findItem_ne_fatal _ _ _ _)
    | panic =>
      rw [findOrMakeTidalPlaylist_find_panic_eq env folder name listing hlist hf] at hres
      simp at hres
  · intro it hf hdata
    obtain ⟨d, hd⟩ : ∃ d, it.Data = some d := Option.ne_none_iff_exists'.1 hdata
    rw [findOrMakeTidalPlaylist_found_eq env folder name listing it hlist hf]
    simp [hd, getTidalFolders_createPlaylistCalls]

theorem findOrMakeTidalPlaylist_listed_witness :
    (getTidalFolders mixFolderEnv (some (folderItem "spotify" "f-1"))).res
      = .ret (some ⟨[some (folderItem "mix" "f-9")]⟩, none) ∧
    (findOrMakeTidalPlaylist mixFolderEnv (some (folderItem "spotify" "f-1")) "mix").res
      = .ret (some (folderItem "mix" "f-9"), none) :=
  ⟨rfl,
    ((findOrMakeTidalPlaylist_listed mixFolderEnv (some (folderItem "spotify" "f-1")) "mix"
      ⟨[some (folderItem "mix" "f-9")]⟩ rfl).2 (folderItem "mix" "f-9") rfl (by decide)).1⟩

/-! ## Create succeeds at the HTTP level but the body does not decode -/

/-- C9, as stated, fails: the listing is empty, the create call is answered
with 200 and a body that does not decode; both resolvers end the process
through the `Failed to create ...` call of `log.Fatal`, with the decoding
error, and not through the `Failed to find ...` call that follows it. -/
theorem create_undecodable_exits_at_create :
    (makeTidalPlaylist undecodableEnv (some (folderItem "spotify" "f-1")) "mix").res
      = .ret (none, some "unexpected end of JSON input") ∧
    (makeTidalFolder undecodableEnv "spotify").res
      = .ret (none, some "unexpected end of JSON input") ∧
    (findOrMakeTidalPlaylist undecodableEnv (some (folderItem "spotify" "f-1")) "mix").res
      = .fatal "Failed to create playlist " (some "unexpected end of JSON input") ∧
    (findOrMakeTidalPlaylist undecodableEnv (some (folderItem "spotify" "f-1")) "mix").res
      ≠ .fatal "Failed to find a playlist" none ∧
    (findOrMakeTidalFolder undecodableEnv).res
      = .fatal "Failed to create folder" (some "unexpected end of JSON input") ∧
    (findOrMakeTidalFolder undecodableEnv).res ≠ .fatal "Failed to find a folder" none :=
  ⟨rfl, rfl, rfl, by decide, rfl, by decide⟩

/-- C9, amended (`findOrMakeTidalPlaylist`, `findOrMakeTidalFolder`): when
the name is absent from the fetched listing and the create request is
answered with a status below 400 but the body does not decode into an item,
the create function (`makeTidalPlaylist`, `makeTidalFolder`), entered exactly
once, returns a nil item with the decoding error, and the resolver ends the
process through `log.Fatal("Failed to create playlist ", err)`, respectively
`log.Fatal("Failed to create folder", err)`.  The nil-item check that follows
is never the exit: the create functions never return a nil item with a nil
error, and no run of either resolver ends in `Failed to find a playlist` or
`Failed to find a folder`. -/
theorem create_undecodable_fatal (env : TidalEnv) :
    (∀ folder d name listing resp body e,
      itemData folder = .ret d →
      (getTidalFolders env folder).res = .ret (some listing, none) →
      findItem (some listing) name = .ret none →
      env.newRequestErr "PUT" (createPlaylistURL d.Id name) = none →
      env.Do (authorizedRequest env "PUT" (createPlaylistURL d.Id name)) = .ok resp →
      resp.StatusCode < 400 →
      resp.Body = .ok body →
      env.unmarshalItem body = .error e →
      (makeTidalPlaylist env folder name).res = .ret (none, some e) ∧
      createPlaylistCalls (findOrMakeTidalPlaylist env folder name).trace = [(folder, name)] ∧
      (findOrMakeTidalPlaylist env folder name).res
        = .fatal "Failed to create playlist " (some e)) ∧
    (∀ listing resp body rerr e,
      folderName env ≠ "root" →
      (getTidalFolders env none).res = .ret (some listing, none) →
      findItem (some listing) (folderName env) = .ret none →
      env.newRequestErr "PUT" (createFolderURL (folderName env)) = none →
      env.Do (authorizedRequest env "PUT" (createFolderURL (folderName env))) = .ok resp →
      resp.StatusCode < 400 →
      readResp (some resp) = .ret (body, rerr) →
      env.unmarshalItem body = .error e →
      (makeTidalFolder env (folderName env)).res = .ret (none, some e) ∧
      createFolderCalls (findOrMakeTidalFolder env).trace = [folderName env] ∧
      (findOrMakeTidalFolder env).res = .fatal "Failed to create folder" (some e)) ∧
    (∀ folder name, (makeTidalPlaylist env folder name).res ≠ .ret (none, none)) ∧
    (∀ name, (makeTidalFolder env name).res ≠ .ret (none, none)) ∧
    (∀ folder name,
      (findOrMakeTidalPlaylist env folder name).res ≠ .fatal "Failed to find a playlist" none) ∧
    (findOrMakeTidalFolder env).res ≠ .fatal "Failed to find a folder" none := by
  refine ⟨?_, ?_, ?_, ?_, ?_, ?_⟩
  · intro folder d name listing resp body e hd hlist hfind hreq hdo hstatus hbody hdec
    have hge : ¬ resp.StatusCode ≥ 400 := by omega
    have hmk : (makeTidalPlaylist env folder name).res = .ret (none, some e) := by
      rw [makeTidalPlaylist_eq env folder name d hd]
      simp [hreq, hdo, hge, hbody, hdec]
    rw [findOrMakeTidalPlaylist_miss_eq env folder name listing hlist hfind]
    refine ⟨hmk, ?_, by simp [hmk]⟩
    dsimp only
    rw [createPlaylistCalls_append, getTidalFolders_createPlaylistCalls,
      makeTidalPlaylist_createPlaylistCalls]
    rfl
  · intro listing resp body rerr e hname hlist hfind hreq hdo hstatus hread hdec
    have hge : ¬ resp.StatusCode ≥ 400 := by omega
    have hmk : (makeTidalFolder env (folderName env)).res = .ret (none, some e) := by
      rw [makeTidalFolder_eq]
      simp [hreq, hdo, hge, hread, hdec]
    rw [findOrMakeTidalFolder_miss_eq env listing hname hlist hfind]
    refine ⟨hmk, ?_, by simp [hmk]⟩
    dsimp only
    rw [createFolderCalls_append, getTidalFolders_createFolderCalls,
      makeTidalFolder_createFolderCalls]
    rfl
  · intro folder name
    rcases makeTidalPlaylist_res_cases env folder name with ⟨it, hm⟩ | ⟨e, hm⟩ | hm <;>
      simp [hm]
  · intro name
    rcases makeTidalFolder_res_cases env name with ⟨it, hm⟩ | ⟨e, hm⟩ <;> simp [hm]
  · intro folder name
    rcases getTidalFolders_res_cases env folder with ⟨listing, h⟩ | ⟨e, h⟩ | h
    · cases hf : findItem (some listing) name with
      | ret r =>
        cases r with
        | none =>
          rw [findOrMakeTidalPlaylist_miss_eq env folder name listing h hf]
          rcases makeTidalPlaylist_res_cases env folder name with ⟨it, hm⟩ | ⟨e, hm⟩ | hm
          · cases hd : it.Data <;> simp [hm, hd]
          · simp [hm]
          · simp [hm]
        | some it =>
          rw [findOrMakeTidalPlaylist_found_eq env folder name listing it h hf]
          cases hd : it.Data <;> simp
      | fatal msg err => exact absurd hf (findItem_ne_fatal _ _ _ _)
      | panic =>
        rw [findOrMakeTidalPlaylist_find_panic_eq env folder name listing h hf]
        simp
    · rw [findOrMakeTidalPlaylist_error_eq env folder name none e h]
      simp
    · unfold findOrMakeTidalPlaylist
      rw [Run.bind_of_panic h]
      simp
  · rcases getTidalFolders_root_res_cases env with ⟨listing, h⟩ | ⟨e, h⟩
    · by_cases hname : folderName env = "root"
      · unfold findOrMakeTidalFolder
        rw [Run.bind_of_ret h]
        simp [hname, Run.pure]
      · cases hf : findItem (some listing) (folderName env) with
        | ret r =>
          cases r with
          | none =>
            rw [findOrMakeTidalFolder_miss_eq env listing hname h hf]
            rcases makeTidalFolder_res_cases env (folderName env) with ⟨it, hm⟩ | ⟨e, hm⟩
            · cases hd : it.Data <;> simp [hm, hd]
            · simp [hm]
          | some it =>
            unfold findOrMakeTidalFolder
            rw [Run.bind_of_ret h]
            cases hd : it.Data <;> simp [hname, hf, itemData, hd, Run.pure, Run.lift]
        | fatal msg err => exact absurd hf (findItem_ne_fatal _ _ _ _)
        | panic =>
          unfold findOrMakeTidalFolder
          rw [Run.bind_of_ret h]
          simp [hname, hf]
    · unfold findOrMakeTidalFolder
      rw [Run.bind_of_ret h]
      simp [Run.fatal]

theorem create_undecodable_fatal_witness :
    (makeTidalPlaylist undecodableEnv (some (folderItem "spotify" "f-1")) "mix").res
      = .ret (none, some eofError) ∧
    (findOrMakeTidalPlaylist undecodableEnv (some (folderItem "spotify" "f-1")) "mix").res
      = .fatal "Failed to create playlist " (some eofError) ∧
    (makeTidalFolder undecodableEnv (folderName undecodableEnv)).res
      = .ret (none, some eofError) ∧
    (findOrMakeTidalFolder undecodableEnv).res
      = .fatal "Failed to create folder" (some eofError) :=
  ⟨((create_undecodable_fatal undecodableEnv).1 (some (folderItem "spotify" "f-1"))
      { Id := "f-1", Uuid := "" } "mix" ⟨[]⟩ { StatusCode := 200, Body := .ok "" } "" eofError
      rfl rfl rfl rfl rfl (by decide) rfl rfl).1,
    ((create_undecodable_fatal undecodableEnv).1 (some (folderItem "spotify" "f-1"))
      { Id := "f-1", Uuid := "" } "mix" ⟨[]⟩ { StatusCode := 200, Body := .ok "" } "" eofError
      rfl rfl rfl rfl rfl (by decide) rfl rfl).2.2,
    ((create_undecodable_fatal undecodableEnv).2.1 ⟨[]⟩ { StatusCode := 200, Body := .ok "" }
      "" none eofError (by decide) rfl rfl rfl rfl (by decide) rfl rfl).1,
    ((create_undecodable_fatal undecodableEnv).2.1 ⟨[]⟩ { StatusCode := 200, Body := .ok "" }
      "" none eofError (by decide) rfl rfl rfl rfl (by decide) rfl rfl).2.2⟩

/-! ## The listing call fails -/

/-- C10 (`findOrMakeTidalPlaylist`, `findOrMakeTidalFolder`, failed listing):
when the listing call returns an error, `findOrMakeTidalPlaylist` returns a
nil item with that same error (it neither ends the process nor panics), its
trace is that of the listing call and holds no create-playlist call; and
`findOrMakeTidalFolder` ends the process in `log.Fatal("Could not get tidal
folders", err)`, its trace is that of the listing call and holds no
create-folder call.  The listing call returns an error in each of the four
failure modes: transport error, status of 400 or more, body read error,
decoding error. -/
theorem listing_failure (env : TidalEnv) :
    (∀ folder name r e, (getTidalFolders env folder).res = .ret (r, some e) →
      (findOrMakeTidalPlaylist env folder name).res = .ret (none, some e) ∧
      (findOrMakeTidalPlaylist env folder name).trace = (getTidalFolders env folder).trace ∧
      createPlaylistCalls (findOrMakeTidalPlaylist env folder name).trace = []) ∧
    (∀ r e, (getTidalFolders env none).res = .ret (r, some e) →
      (findOrMakeTidalFolder env).res = .fatal "Could not get tidal folders" (some e) ∧
      (findOrMakeTidalFolder env).trace = (getTidalFolders env none).trace ∧
      createFolderCalls (findOrMakeTidalFolder env).trace = []) ∧
    (∀ folder d,
      itemData (match folder with | none => some rootItem | some f => some f) = .ret d →
      env.newRequestErr "GET" (listingURL d.Id) = none →
      (∀ e, env.Do (authorizedRequest env "GET" (listingURL d.Id)) = .error e →
        (getTidalFolders env folder).res = .ret (none, some e)) ∧
      (∀ resp, env.Do (authorizedRequest env "GET" (listingURL d.Id)) = .ok resp →
        resp.StatusCode ≥ 400 →
        (getTidalFolders env folder).res = .ret (none, some (statusError resp.StatusCode))) ∧
      (∀ resp e, env.Do (authorizedRequest env "GET" (listingURL d.Id)) = .ok resp →
        resp.StatusCode < 400 → resp.Body = .error e →
        (getTidalFolders env folder).res = .ret (none, some e)) ∧
      (∀ resp body e, env.Do (authorizedRequest env "GET" (listingURL d.Id)) = .ok resp →
        resp.StatusCode < 400 → resp.Body = .ok body →
        env.unmarshalFolders body = .error e →
        (getTidalFolders env folder).res = .ret (none, some e))) := by
  refine ⟨?_, ?_, ?_⟩
  · intro folder name r e h
    rw [findOrMakeTidalPlaylist_error_eq env folder name r e h]
    exact ⟨rfl, rfl, getTidalFolders_createPlaylistCalls env folder⟩
  · intro r e h
    have hrun : findOrMakeTidalFolder env
        = ⟨.fatal "Could not get tidal folders" (some e), (getTidalFolders env none).trace⟩ := by
      unfold findOrMakeTidalFolder
      rw [Run.bind_of_ret h]
      simp [Run.fatal]
    rw [hrun]
    exact ⟨rfl, rfl, getTidalFolders_createFolderCalls env none⟩
  · intro folder d hd hreq
    rw [getTidalFolders_eq env folder d hd]
    refine ⟨?_, ?_, ?_, ?_⟩
    · intro e hdo
      simp [hreq, hdo]
    · intro resp hdo hstatus
      simp [hreq, hdo, hstatus]
    · intro resp e hdo hstatus hbody
      have hge : ¬ resp.StatusCode ≥ 400 := by omega
      simp [hreq, hdo, hge, hbody]
    · intro resp body e hdo hstatus hbody hdec
      have hge : ¬ resp.StatusCode ≥ 400 := by omega
      simp [hreq, hdo, hge, hbody, hdec]

theorem listing_failure_witness :
    (getTidalFolders rootDownEnv (some (folderItem "spotify" "f-1"))).res
      = .ret (none, some (statusError 503)) ∧
    (findOrMakeTidalPlaylist rootDownEnv (some (folderItem "spotify" "f-1")) "mix").res
      = .ret (none, some (statusError 503)) ∧
    (findOrMakeTidalFolder env404).res
      = .fatal "Could not get tidal folders" (some (statusError 404)) :=
  ⟨rfl,
    ((listing_failure rootDownEnv).1 (some (folderItem "spotify" "f-1")) "mix" none
      (statusError 503) rfl).1,
    ((listing_failure env404).2.1 none (statusError 404) rfl).1⟩

/-! ## `getPlaylist` -/

theorem foldl_append_singleton {α β : Type} (f : α → β) (xs : List α) (acc : List β) :
    xs.foldl (fun ys x => ys ++ [f x]) acc = acc ++ xs.map f := by
  induction xs generalizing acc with
  | nil => simp
  | cons x rest ih => simp [ih]

theorem convertArtists_eq (as : List SimpleArtist) :
    convertArtists as = as.map (fun a => some { Name := a.Name }) := by
  simp [convertArtists, foldl_append_singleton]

theorem convertTracks_eq (ts : List PlaylistTrack) :
    convertTracks ts = ts.map (fun t => some (convertTrack t)) := by
  simp [convertTracks, foldl_append_singleton]

/-- C7 (`getPlaylist`, track conversion): when the token is granted and the
source playlist `sp` is fetched, `getPlaylist` returns a `Playlist` with the
name and description of `sp` whose `Tracks` has the length of the source
track list, and whose `i`-th track is non-nil and carries the name and the
album name of the `i`-th source track and an `Artists` list of the same
length as that track's artist list, the `j`-th artist being non-nil and
carrying the name of the `j`-th source artist. -/
theorem getPlaylist_tracks (env : SpotifyEnv) (playlist_id : String) (sp : FullPlaylist)
    (htoken : env.tokenErr = none)
    (hget : env.GetPlaylist playlist_id = .ok sp) :
    ∃ p : Playlist, getPlaylist env playlist_id = .ret p ∧
      p.Name = sp.SimplePlaylist.Name ∧
      p.Description = sp.SimplePlaylist.Description ∧
      p.Tracks.length = sp.Tracks.Tracks.length ∧
      ∀ (i : Nat) (src : PlaylistTrack), sp.Tracks.Tracks[i]? = some src →
        ∃ t : Track, p.Tracks[i]? = some (some t) ∧
          t.Name = src.Track.SimpleTrack.Name ∧
          t.Album = src.Track.Album.Name ∧
          t.Artists.length = src.Track.SimpleTrack.Artists.length ∧
          ∀ (j : Nat) (a : SimpleArtist), src.Track.SimpleTrack.Artists[j]? = some a →
            t.Artists[j]? = some (some (Artist.mk a.Name)) := by
  refine ⟨Playlist.mk sp.SimplePlaylist.Name sp.SimplePlaylist.Description
      (convertTracks sp.Tracks.Tracks),
    by simp [getPlaylist, spotifyAuth, htoken, hget], rfl, rfl, ?_, ?_⟩
  · simp [convertTracks_eq]
  · intro i src hsrc
    refine ⟨convertTrack src, ?_, rfl, rfl, ?_, ?_⟩
    · simp [convertTracks_eq, hsrc]
    · simp [convertTrack, convertArtists_eq]
    · intro j a ha
      simp [convertTrack, convertArtists_eq, ha]

theorem getPlaylist_tracks_witness :
    threeTracksEnv.tokenErr = none ∧
    threeTracksEnv.GetPlaylist "37i9dQZF1DX8Uebhn9wzrS" = .ok threeTracks ∧
    threeTracks.Tracks.Tracks.length = 3 ∧
    (∃ p : Playlist, getPlaylist threeTracksEnv "37i9dQZF1DX8Uebhn9wzrS" = .ret p ∧
      p.Tracks.length = threeTracks.Tracks.Tracks.length) ∧
    getPlaylist threeTracksEnv "37i9dQZF1DX8Uebhn9wzrS"
      = .ret (Playlist.mk "Road trip" "three songs"
          [some (Track.mk "One" [some (Artist.mk "Ann")] "First" 1000000000),
           some (Track.mk "Two" [some (Artist.mk "Bob"), some (Artist.mk "Cy")] "Second"
             215000000000),
           some (Track.mk "Three" [] "Third" 61234000000)]) :=
  ⟨rfl, rfl, rfl,
    (getPlaylist_tracks threeTracksEnv "37i9dQZF1DX8Uebhn9wzrS" threeTracks rfl rfl).imp
      (fun _ h => ⟨h.1, h.2.2.2.1⟩),
    by decide⟩

theorem int64_of_range (x : Int) (hlo : -2 ^ 63 ≤ x) (hhi : x < 2 ^ 63) : int64 x = x := by
  unfold int64
  have h1 : (0 : Int) ≤ x + 2 ^ 63 := by omega
  have h2 : x + 2 ^ 63 < 2 ^ 64 := by omega
  rw [Int.emod_eq_of_lt h1 h2]
  omega

/-- The product of line 103 does not wrap when `d * 1000000` is in the range
of `int64`. -/
theorem trackDuration_of_range (d : Int)
    (hlo : -2 ^ 63 ≤ d * 1000000) (hhi : d * 1000000 < 2 ^ 63) :
    trackDuration d = d * 1000000 := by
  have hms : timeMillisecond = 1000000 := by decide
  have hd : int64 d = d := int64_of_range d (by omega) (by omega)
  have hm : int64 timeMillisecond = 1000000 := by
    rw [hms]; exact int64_of_range 1000000 (by norm_num) (by norm_num)
  unfold trackDuration
  rw [hd, hm]
  exact int64_of_range _ hlo hhi

/-- C8 (`getPlaylist`, duration): when the token is granted and the source
playlist `sp` is fetched, `getPlaylist` returns a `Playlist` in which, for
every index `i` whose source track has a duration `d` in milliseconds with
`d * 1000000` in the range of `int64`, the `i`-th track is non-nil and its
`Duration` is exactly `d * 1000000` nanoseconds, that is `d` times
`time.Millisecond`; in particular a source duration of 1000 gives exactly
`time.Second`. -/
theorem getPlaylist_duration (env : SpotifyEnv) (playlist_id : String) (sp : FullPlaylist)
    (htoken : env.tokenErr = none)
    (hget : env.GetPlaylist playlist_id = .ok sp) :
    ∃ p : Playlist, getPlaylist env playlist_id = .ret p ∧
      p.Tracks.length = sp.Tracks.Tracks.length ∧
      (∀ (i : Nat) (src : PlaylistTrack), sp.Tracks.Tracks[i]? = some src →
        -2 ^ 63 ≤ src.Track.SimpleTrack.Duration * 1000000 →
        src.Track.SimpleTrack.Duration * 1000000 < 2 ^ 63 →
        ∃ t : Track, p.Tracks[i]? = some (some t) ∧
          t.Duration = src.Track.SimpleTrack.Duration * 1000000 ∧
          t.Duration = src.Track.SimpleTrack.Duration * timeMillisecond ∧
          (src.Track.SimpleTrack.Duration = 1000 → t.Duration = timeSecond)) ∧
      timeMillisecond = 1000000 ∧ timeSecond = 1000000000 := by
  have hms : timeMillisecond = 1000000 := by decide
  have hs : timeSecond = 1000000000 := by decide
  refine ⟨Playlist.mk sp.SimplePlaylist.Name sp.SimplePlaylist.Description
      (convertTracks sp.Tracks.Tracks),
    by simp [getPlaylist, spotifyAuth, htoken, hget], by simp [convertTracks_eq], ?_, hms, hs⟩
  intro i src hsrc hlo hhi
  have hdur : (convertTrack src).Duration = src.Track.SimpleTrack.Duration * 1000000 := by
    simp [convertTrack, trackDuration_of_range _ hlo hhi]
  refine ⟨convertTrack src, by simp [convertTracks_eq, hsrc], hdur, by rw [hdur, hms], ?_⟩
  intro h1000
  rw [hdur, h1000, hs]
  norm_num

theorem getPlaylist_duration_witness :
    threeTracksEnv.tokenErr = none ∧
    threeTracksEnv.GetPlaylist "37i9dQZF1DX8Uebhn9wzrS" = .ok threeTracks ∧
    threeTracks.Tracks.Tracks[0]? = some (sourceTrack "One" "First" ["Ann"] 1000) ∧
    ∃ p : Playlist, getPlaylist threeTracksEnv "37i9dQZF1DX8Uebhn9wzrS" = .ret p ∧
      ∃ t : Track, p.Tracks[0]? = some (some t) ∧ t.Duration = 1000 * 1000000 ∧
        t.Duration = timeSecond := by
  obtain ⟨p, hp, -, hdur, -, -⟩ :=
    getPlaylist_duration threeTracksEnv "37i9dQZF1DX8Uebhn9wzrS" threeTracks rfl rfl
  obtain ⟨t, ht, h1, -, h3⟩ :=
    hdur 0 (sourceTrack "One" "First" ["Ann"] 1000) rfl (by decide) (by decide)
  exact ⟨rfl, rfl, rfl, p, hp, t, ht, h1, h3 rfl⟩

end Streamsync
